import Mathlib

/-!
Verification of the zsys dataset-state helpers (internal/zfs/helpers.go).

This file gives a shallow embedding of the helpers in that file:
`stringToProp`, `setProperty` (with its inheritance cascade),
`getUserPropertyFromSys`, `RefreshProperties`,
`checkSnapshotHierarchyIntegrity`, `splitSnapshotName` and
`inverseOrigin`, together with theorems settling the specification
claims about them.

Modelling conventions:
* Go pointers to `Dataset` are modelled by a numeric `id` field: pointer
  equality in the source is `id` equality here.
* The libzfs backend is external to the embedded code; a backend write is
  modelled by an `Option String` parameter (`none` = success,
  `some e` = the write failed with error `e`).  The read-side backend
  state (`dZFS.Properties`, `GetUserProperty`, pool alt-root) is modelled
  by the `LibzfsDataset` record.
* Go strings are byte strings; we model them with Lean `String` and
  operate on their character lists.  All constants involved are ASCII,
  where the two coincide.
* The concurrent producer/consumer cascade of `setProperty` is embedded
  as the sequential depth-first traversal it is equivalent to: the
  producer decides each node from fields the consumer only writes after
  that node has been emitted, so collection order and application order
  agree with the fused recursion used here.
-/

namespace Zsys

/-! ## Character and string helpers (Go `strings`, `strconv`) -/

/-- Index of the last occurrence of `c` in `cs` (Go `strings.LastIndex`
for a one-byte separator). -/
def lastIndexOfChar (cs : List Char) (c : Char) : Option Nat :=
  match cs with
  | [] => none
  | x :: xs =>
    match lastIndexOfChar xs c with
    | some i => some (i + 1)
    | none => if x = c then some 0 else none

/-- Go `strings.TrimPrefix`: drop `pre` from the front of `s` when it is a
prefix, otherwise return `s` unchanged. -/
def trimPrefixGo (s pre : String) : String :=
  if pre.toList.isPrefixOf s.toList then String.mk (s.toList.drop pre.toList.length) else s

/-- Go `strings.HasPrefix`-style decimal digit value of a character used by
`strconv.Atoi`: `some d` when `c` is `0`..`9`. -/
def digitVal? (c : Char) : Option Nat :=
  if 48 ≤ c.toNat ∧ c.toNat ≤ 57 then some (c.toNat - 48) else none

/-- Accumulating decimal parser over a digit list (the digits loop of Go
`strconv.Atoi`). -/
def parseDigitsAcc (acc : Nat) : List Char → Option Nat
  | [] => some acc
  | c :: cs =>
    match digitVal? c with
    | none => none
    | some d => parseDigitsAcc (acc * 10 + d) cs

/-- Nonempty all-digit parse (Go `strconv.Atoi` rejects an empty digit
string). -/
def parseDigitsNE (l : List Char) : Option Nat :=
  if l = [] then none else parseDigitsAcc 0 l

/-- Character-list core of Go `strconv.Atoi`: optional sign followed by a
nonempty digit string. -/
def atoiChars : List Char → Option Int
  | [] => none
  | c :: cs =>
    if c = '-' then
      match parseDigitsNE cs with
      | none => none
      | some n => some (-(n : Int))
    else if c = '+' then
      match parseDigitsNE cs with
      | none => none
      | some n => some ((n : Int))
    else
      match parseDigitsNE (c :: cs) with
      | none => none
      | some n => some ((n : Int))

/-- Go `strconv.Atoi`.  Machine-word overflow is not modelled (the values
involved are small timestamps). -/
def atoiGo (s : String) : Option Int := atoiChars s.toList

/-- Decimal digit character for `n < 10`. -/
def digitChar (n : Nat) : Char := Char.ofNat (48 + n)

/-- Decimal digit list, fuel-driven so that it reduces definitionally;
`fuel > n` always suffices. -/
def natToDigitsCore : Nat → Nat → List Char
  | 0, _ => []
  | fuel + 1, n =>
    if n < 10 then [digitChar n]
    else natToDigitsCore fuel (n / 10) ++ [digitChar (n % 10)]

/-- Decimal digit list of a natural number, most significant first. -/
def natToDigits (n : Nat) : List Char := natToDigitsCore (n + 1) n

/-- Go `strconv.Itoa` on our unbounded integers. -/
def itoaGo (n : Int) : String :=
  if n < 0 then "-" ++ String.mk (natToDigits n.natAbs) else String.mk (natToDigits n.natAbs)

/-! ## Lexical path cleaning (Go `path/filepath.Clean` / `Join`) -/

/-- Split a character list on `/` into segments. -/
def splitSegs : List Char → List (List Char)
  | [] => [[]]
  | c :: rest =>
    let r := splitSegs rest
    if c = '/' then [] :: r
    else
      match r with
      | s :: ss => (c :: s) :: ss
      | [] => [[c]]

/-- The segment stack transformation of `filepath.Clean`: skip empty and
`.` segments, let `..` pop a previous real segment (or accumulate at the
front of a relative path, or vanish at the root of an absolute one).
The stack is kept reversed. -/
def cleanSegsAux (rooted : Bool) (stack : List (List Char)) : List (List Char) → List (List Char)
  | [] => stack
  | seg :: rest =>
    if seg = [] ∨ seg = ['.'] then cleanSegsAux rooted stack rest
    else if seg = ['.', '.'] then
      match stack with
      | top :: stk =>
        if top = ['.', '.'] then cleanSegsAux rooted (seg :: stack) rest
        else cleanSegsAux rooted stk rest
      | [] =>
        if rooted then cleanSegsAux rooted [] rest
        else cleanSegsAux rooted [seg] rest
    else cleanSegsAux rooted (seg :: stack) rest

/-- Join segments with `/`. -/
def joinSegs : List (List Char) → List Char
  | [] => []
  | [s] => s
  | s :: rest => s ++ '/' :: joinSegs rest

/-- Go `filepath.Clean` (Unix rules), via the standard segment-stack
formulation, which is extensionally the cleaning `filepath.Clean`
performs. -/
def pathClean (p : String) : String :=
  match p.toList with
  | [] => "."
  | c :: cs =>
    let rooted := c = '/'
    let out := joinSegs ((cleanSegsAux rooted [] (splitSegs (c :: cs))).reverse)
    if rooted then String.mk ('/' :: out)
    else if out = [] then "."
    else String.mk out

/-- Go `filepath.Join` restricted to two elements: skip leading empty
elements, join the rest with `/`, then clean. -/
def filepathJoin (a b : String) : String :=
  if a ≠ "" then pathClean (a ++ "/" ++ b)
  else if b ≠ "" then pathClean b
  else ""

/-! ## Data model (zfs.Dataset, zfs.DatasetProp, zfs.datasetSources) -/

/-- Modelled from the spec: the zsys property-name constants are declared
outside helpers.go (in the surrounding zfs package); only their pairwise
distinctness and the native/user split matter to the helpers. -/
def BootfsProp : String := "com.ubuntu.zsys:bootfs"

/-- Modelled from the spec: see `BootfsProp`. -/
def LastUsedProp : String := "com.ubuntu.zsys:last-used"

/-- Modelled from the spec: see `BootfsProp`. -/
def BootfsDatasetsProp : String := "com.ubuntu.zsys:bootfs-datasets"

/-- Modelled from the spec: see `BootfsProp`. -/
def LastBootedKernelProp : String := "com.ubuntu.zsys:last-booted-kernel"

/-- Modelled from the spec: see `BootfsProp`. -/
def CanmountProp : String := "canmount"

/-- Modelled from the spec: see `BootfsProp`. -/
def MountPointProp : String := "mountpoint"

/-- Modelled from the spec: see `BootfsProp`. -/
def SnapshotCanmountProp : String := "com.ubuntu.zsys:canmount"

/-- Modelled from the spec: see `BootfsProp`. -/
def SnapshotMountpointProp : String := "com.ubuntu.zsys:mountpoint"

/-- Go `datasetSources`: simplified provenance (one of `"local"`,
`""` = default, `"inherited"`) per inheritable property. -/
structure DatasetSources where
  Mountpoint : String := ""
  CanMount : String := ""
  BootFS : String := ""
  LastUsed : String := ""
  LastBootedKernel : String := ""
  BootfsDatasets : String := ""
deriving DecidableEq, Repr

/-- Go `zfs.DatasetProp`. -/
structure DatasetProp where
  Mountpoint : String := ""
  CanMount : String := ""
  Mounted : Bool := false
  BootFS : Bool := false
  LastUsed : Int := 0
  LastBootedKernel : String := ""
  BootfsDatasets : String := ""
  Origin : String := ""
  sources : DatasetSources := {}
deriving DecidableEq, Repr

/-- Scalar part of a Go `zfs.Dataset` node.  `id` models the node's
pointer identity (two nodes are the same Go object iff their ids are
equal). -/
structure DatasetData where
  id : Nat := 0
  Name : String := ""
  IsSnapshot : Bool := false
  prop : DatasetProp := {}
deriving DecidableEq, Repr

/-- Go `zfs.Dataset`: scalar data plus owned children (filesystem
children and the dataset's own snapshots). -/
inductive Dataset where
  | node (data : DatasetData) (children : List Dataset)

/-- Scalar data of a dataset node. -/
def Dataset.data : Dataset → DatasetData
  | .node d _ => d

/-- Children of a dataset node. -/
def Dataset.children : Dataset → List Dataset
  | .node _ cs => cs

@[simp] theorem Dataset.data_node (d : DatasetData) (cs : List Dataset) :
    (Dataset.node d cs).data = d := rfl

@[simp] theorem Dataset.children_node (d : DatasetData) (cs : List Dataset) :
    (Dataset.node d cs).children = cs := rfl

theorem Dataset.eta (d : Dataset) : Dataset.node d.data d.children = d := by
  cases d
  rfl

/-! ## stringToProp and setProperty -/

/-- The two native libzfs properties the helpers set
(`libzfs.DatasetPropCanmount`, `libzfs.DatasetPropMountpoint`); `none`
models the zero `libzfs.Prop` (`np == empty` in the source). -/
inductive NativeProp where
  | canmount
  | mountpoint
deriving DecidableEq, Repr

/-- Result of Go `stringToProp`: the native property (if any), the user
property name, and the current values the returned `value`/`source`
pointers point at. -/
structure StringToPropRes where
  np : Option NativeProp
  userProp : String
  value : String
  source : String
deriving DecidableEq, Repr

/-- Go `(*Dataset).stringToProp`: dispatch a property name to the native
property, user property name, and the `value`/`source` targets.  For
`BootfsProp` and `LastUsedProp` the returned `value` pointer targets a
local temporary (stringified field value); writes through it do not
reach the dataset, which `destVWrite` mirrors.  `none` models the Go
panic on an unsupported name. -/
def stringToProp (cd : DatasetData) (name : String) : Option StringToPropRes :=
  if name = CanmountProp then
    some { np := if cd.IsSnapshot then none else some .canmount,
           userProp := if cd.IsSnapshot then SnapshotCanmountProp else name,
           value := cd.prop.CanMount, source := cd.prop.sources.CanMount }
  else if name = SnapshotCanmountProp then
    some { np := none, userProp := name,
           value := cd.prop.CanMount, source := cd.prop.sources.CanMount }
  else if name = MountPointProp then
    some { np := if cd.IsSnapshot then none else some .mountpoint,
           userProp := if cd.IsSnapshot then SnapshotMountpointProp else name,
           value := cd.prop.Mountpoint, source := cd.prop.sources.Mountpoint }
  else if name = SnapshotMountpointProp then
    some { np := none, userProp := name,
           value := cd.prop.Mountpoint, source := cd.prop.sources.Mountpoint }
  else if name = BootfsProp then
    some { np := none, userProp := name,
           value := if cd.prop.BootFS then "yes" else "no", source := cd.prop.sources.BootFS }
  else if name = LastUsedProp then
    some { np := none, userProp := name,
           value := itoaGo cd.prop.LastUsed, source := cd.prop.sources.LastUsed }
  else if name = BootfsDatasetsProp then
    some { np := none, userProp := name,
           value := cd.prop.BootfsDatasets, source := cd.prop.sources.BootfsDatasets }
  else if name = LastBootedKernelProp then
    some { np := none, userProp := name,
           value := cd.prop.LastBootedKernel, source := cd.prop.sources.LastBootedKernel }
  else none

/-- Go `(*Dataset).getPropertyFromName`: value and simplified source for a
name (panic on unsupported name modelled as `none`). -/
def getPropertyFromName (cd : DatasetData) (name : String) : Option (String × String) :=
  (stringToProp cd name).map fun r => (r.value, r.source)

/-- Write through the `value` pointer `stringToProp` returns: a real field
for canmount/mountpoint/bootfs-datasets/last-booted-kernel, a discarded
local temporary for `BootfsProp`/`LastUsedProp`. -/
def destVWrite (name v : String) (cd : DatasetData) : DatasetData :=
  if name = CanmountProp ∨ name = SnapshotCanmountProp then
    { cd with prop := { cd.prop with CanMount := v } }
  else if name = MountPointProp ∨ name = SnapshotMountpointProp then
    { cd with prop := { cd.prop with Mountpoint := v } }
  else if name = BootfsDatasetsProp then
    { cd with prop := { cd.prop with BootfsDatasets := v } }
  else if name = LastBootedKernelProp then
    { cd with prop := { cd.prop with LastBootedKernel := v } }
  else cd

/-- Write through the `simplifiedSource` pointer `stringToProp` returns. -/
def destSWrite (name s : String) (cd : DatasetData) : DatasetData :=
  if name = CanmountProp ∨ name = SnapshotCanmountProp then
    { cd with prop := { cd.prop with sources := { cd.prop.sources with CanMount := s } } }
  else if name = MountPointProp ∨ name = SnapshotMountpointProp then
    { cd with prop := { cd.prop with sources := { cd.prop.sources with Mountpoint := s } } }
  else if name = BootfsProp then
    { cd with prop := { cd.prop with sources := { cd.prop.sources with BootFS := s } } }
  else if name = LastUsedProp then
    { cd with prop := { cd.prop with sources := { cd.prop.sources with LastUsed := s } } }
  else if name = BootfsDatasetsProp then
    { cd with prop := { cd.prop with sources := { cd.prop.sources with BootfsDatasets := s } } }
  else if name = LastBootedKernelProp then
    { cd with prop := { cd.prop with sources := { cd.prop.sources with LastBootedKernel := s } } }
  else cd

/-- Result of `setProperty`.  `err` carries the in-memory dataset state at
the moment the error is returned; `panicked` models a Go panic. -/
inductive SetPropertyResult where
  | ok (d : Dataset)
  | err (msg : String) (d : Dataset)
  | panicked (msg : String)

/-- The per-child refresh of the `setProperty` cascade consumer (the body
of `for c := range children`), on the child's scalar data.  Returns the
(possibly rewritten, for `LastUsedProp`) captured `value` variable and
the refreshed data; `Except.error` models the Go panic when a
non-integer `lastUsed` slips past the main-dataset check. -/
def applyCascadeUpdate (name oldMountPoint value : String) (cd : DatasetData) :
    Except String (String × DatasetData) :=
  if name = BootfsProp then
    .ok (value, destSWrite name "inherited" { cd with prop := { cd.prop with BootFS := value == "yes" } })
  else if name = LastUsedProp then
    let value := if value = "" then "0" else value
    match atoiGo value with
    | none => .error ("last-used property is not an int while it has already been checked for main dataset")
    | some lu => .ok (value, destSWrite name "inherited" { cd with prop := { cd.prop with LastUsed := lu } })
  else if name = MountPointProp then
    .ok (value, destSWrite name "inherited"
      (destVWrite name (filepathJoin value (trimPrefixGo cd.prop.Mountpoint oldMountPoint)) cd))
  else
    .ok (value, destSWrite name "inherited" (destVWrite name value cd))

mutual

/-- One child of the fused producer/consumer cascade of `setProperty`:
snapshots and children whose provenance is neither `"inherited"` nor
(for pure user properties) the empty default marker are skipped without
descending into them; the rest are refreshed and their children
traversed.  `Except.error` carries a Go panic (unsupported name in
`stringToProp`, or the `LastUsedProp` re-parse). -/
def cascadeChild (name oldMountPoint : String) (value : String) (c : Dataset) :
    Except String (String × Dataset) :=
  match c with
  | Dataset.node cdata ccs =>
    match stringToProp cdata name with
    | none => .error ("unsupported property " ++ name)
    | some r =>
      if cdata.IsSnapshot then .ok (value, Dataset.node cdata ccs)
      else if r.source != "inherited" && !(r.source == "" && r.np.isNone) then
        .ok (value, Dataset.node cdata ccs)
      else
        match applyCascadeUpdate name oldMountPoint value cdata with
        | .error e => .error e
        | .ok (v1, cdata1) =>
          match cascadeList name oldMountPoint v1 ccs with
          | .error e => .error e
          | .ok (v2, ccs2) => .ok (v2, Dataset.node cdata1 ccs2)

/-- The cascade over a list of children, threading the captured `value`
variable left to right. -/
def cascadeList (name oldMountPoint : String) (value : String) :
    List Dataset → Except String (String × List Dataset)
  | [] => .ok (value, [])
  | c :: rest =>
    match cascadeChild name oldMountPoint value c with
    | .error e => .error e
    | .ok (v1, c1) =>
      match cascadeList name oldMountPoint v1 rest with
      | .error e => .error e
      | .ok (v2, rest2) => .ok (v2, c1 :: rest2)

end

/-- Run the cascade below a dataset and rebuild it. -/
def runCascade (name oldMountPoint value : String) (d : Dataset) : SetPropertyResult :=
  match cascadeList name oldMountPoint value d.children with
  | .error e => .panicked e
  | .ok (_, cs1) => .ok (Dataset.node d.data cs1)

/-- Go `(*Dataset).setProperty`.  `backendErr` models the result of the
initial libzfs write (`SetProperty`/`SetUserProperty`): `some e` means
the backend write failed with `e`, in which case the function returns
before touching any in-memory state.  The per-child libzfs property
cache refresh (`c.dZFS.Properties[np] = …`) is backend-side state and is
not part of the in-memory model. -/
def setProperty (backendErr : Option String) (d : Dataset) (name value source : String) :
    SetPropertyResult :=
  match stringToProp d.data name with
  | none => .panicked ("unsupported property " ++ name)
  | some r =>
    match backendErr with
    | some e => .err e d
    | none =>
      if name = BootfsProp then
        let data1 := { d.data with prop := { d.data.prop with BootFS := value == "yes" } }
        runCascade name "" value (Dataset.node (destSWrite name source data1) d.children)
      else if name = LastUsedProp then
        let destV := if value = "" then "0" else r.value
        match atoiGo destV with
        | none => .err ("last-used property is not an int") d
        | some lastUsed =>
          let data1 := { d.data with prop := { d.data.prop with LastUsed := lastUsed } }
          runCascade name "" value (Dataset.node (destSWrite name source data1) d.children)
      else if name = MountPointProp then
        let oldMountPoint := r.value
        let data1 := destSWrite name source (destVWrite name value d.data)
        runCascade name oldMountPoint value (Dataset.node data1 d.children)
      else
        let data1 := destSWrite name source (destVWrite name value d.data)
        runCascade name "" value (Dataset.node data1 d.children)

/-! ## Backend read model, getUserPropertyFromSys, RefreshProperties -/

/-- A libzfs property record (`libzfs.Property`): value plus source tag. -/
structure LibzfsProperty where
  Value : String := ""
  Source : String := ""
deriving DecidableEq, Repr

/-- Read-side state of a `libzfs.Dataset` as used by the helpers.
`poolAltroot = none` models a failing `Pool()` call; `userProps prop =
none` models a failing `GetUserProperty` call (an unset property is a
present record with the `"-"` sentinel value). -/
structure LibzfsDataset where
  name : String := ""
  isSnapshot : Bool := false
  mountpointProp : LibzfsProperty := {}
  canmountProp : LibzfsProperty := {}
  mountedProp : LibzfsProperty := {}
  originProp : LibzfsProperty := {}
  creationProp : LibzfsProperty := {}
  poolAltroot : Option String := some ""
  userProps : String → Option LibzfsProperty := fun _ => none

/-- Go `getUserPropertyFromSys`: read a user property and sanitize its
source.  Unset sentinel (`"-"` with source `"-"`/`"none"`) and snapshot
properties that are not local are treated as absent; snapshot values
unpack as `value:provenance` on the last `:` (a missing `:` logs a
warning and returns the still-zero named results). -/
def getUserPropertyFromSys (prop : String) (z : LibzfsDataset) : Except String (String × String) :=
  match z.userProps prop with
  | none => .error ("cannot get " ++ prop ++ " property")
  | some p =>
    if p.Value == "-" && (p.Source == "-" || p.Source == "none") then .ok ("", "")
    else if z.isSnapshot && p.Source != "local" then .ok ("", "")
    else if z.isSnapshot then
      match lastIndexOfChar p.Value.toList ':' with
      | none => .ok ("", "")
      | some idx =>
        let value := String.mk (p.Value.toList.take idx)
        let source := String.mk (p.Value.toList.drop (idx + 1))
        .ok (value, if source != "local" && source != "default" then "inherited" else source)
    else
      let value := p.Value
      let source := p.Source
      .ok (value, if source != "local" && source != "default" then "inherited" else source)

/-- Go `(*Dataset).RefreshProperties` on the backend state `z`, producing
the refreshed `DatasetProp` (`d.DatasetProp = DatasetProp{…}` at the end
of the source function).  `dIsSnapshot` is the `d.IsSnapshot` field the
source branches on. -/
def RefreshProperties (dIsSnapshot : Bool) (z : LibzfsDataset) : Except String DatasetProp :=
  match (if dIsSnapshot then
           let mpr := match getUserPropertyFromSys SnapshotMountpointProp z with
                      | .ok vs => vs
                      | .error _ => ("", "")
           let cmr := match getUserPropertyFromSys SnapshotCanmountProp z with
                      | .ok vs => vs
                      | .error _ => ("", "")
           Except.ok (false, mpr.1, cmr.1, mpr.2, cmr.2)
         else
           match z.poolAltroot with
           | none => Except.error "cannot get associated pool"
           | some poolRoot =>
             let mountpoint0 := trimPrefixGo z.mountpointProp.Value poolRoot
             let mountpoint := if mountpoint0 = "" then "/" else mountpoint0
             Except.ok (z.mountedProp.Value == "yes", mountpoint, z.canmountProp.Value,
                        z.mountpointProp.Source, z.canmountProp.Source) :
           Except String (Bool × String × String × String × String)) with
  | .error e => .error e
  | .ok (mounted, mountpoint, canMount, sourceMountPoint, sourceCanMount) =>
    let srcMountpoint :=
      if sourceMountPoint = "local" then "local"
      else if sourceMountPoint = "default" then "" else "inherited"
    let srcCanMount :=
      if sourceCanMount = "local" then "local"
      else if sourceCanMount = "default" then "" else ""
    let origin := z.originProp.Value
    match getUserPropertyFromSys BootfsProp z with
    | .error e => .error e
    | .ok (bfs, srcBootFS) =>
      let bootFS := bfs == "yes"
      match (if !dIsSnapshot then getUserPropertyFromSys LastUsedProp z
             else .ok (z.creationProp.Value, "")) with
      | .error e => .error e
      | .ok (lu0, srcLastUsed) =>
        let lu := if lu0 = "" then "0" else lu0
        match atoiGo lu with
        | none => .error "last-used property is not an int"
        | some lastUsed =>
          match getUserPropertyFromSys LastBootedKernelProp z with
          | .error e => .error e
          | .ok (lastBootedKernel, srcLastBootedKernel) =>
            match getUserPropertyFromSys BootfsDatasetsProp z with
            | .error e => .error e
            | .ok (bootfsDatasets, srcBootfsDatasets) =>
              .ok { Mountpoint := mountpoint, CanMount := canMount, Mounted := mounted,
                    BootFS := bootFS, LastUsed := lastUsed,
                    LastBootedKernel := lastBootedKernel,
                    BootfsDatasets := bootfsDatasets, Origin := origin,
                    sources := { Mountpoint := srcMountpoint, CanMount := srcCanMount,
                                 BootFS := srcBootFS, LastUsed := srcLastUsed,
                                 LastBootedKernel := srcLastBootedKernel,
                                 BootfsDatasets := srcBootfsDatasets } }

/-! ## splitSnapshotName and checkSnapshotHierarchyIntegrity -/

/-- Go `splitSnapshotName`: base and trailing name around the last `@`. -/
def splitSnapshotName (name : String) : String × String :=
  match lastIndexOfChar name.toList '@' with
  | none => (name, "")
  | some i => (String.mk (name.toList.take i), String.mk (name.toList.drop (i + 1)))

/-- The integrity error message of `checkSnapshotHierarchyIntegrity` (the
formatted `"parent of %q doesn't have a snapshot named %q…"` error). -/
def integrityMsg (dName snapshotName : String) : String :=
  "parent of " ++ dName ++ " does not have a snapshot named " ++ snapshotName ++
    " but " ++ dName ++ "@" ++ snapshotName ++ " exists"

mutual

/-- Go `(Dataset).checkSnapshotHierarchyIntegrity`: a child snapshot named
`<d>@<snapshotName>` is an error when the parent was flagged as not
having one; otherwise recurse into non-snapshot children with the flag
recomputed at this node. -/
def checkSnapshotHierarchyIntegrity (d : Dataset) (snapshotName : String)
    (snapshotOnParent : Bool) : Except String Unit :=
  match d with
  | .node data cs =>
    let found := cs.any (fun cd => cd.data.Name == data.Name ++ "@" ++ snapshotName)
    if found && !snapshotOnParent then .error (integrityMsg data.Name snapshotName)
    else checkIntegrityChildren snapshotName found cs

/-- The `for _, cd := range d.children` recursion of
`checkSnapshotHierarchyIntegrity`. -/
def checkIntegrityChildren (snapshotName : String) (found : Bool) :
    List Dataset → Except String Unit
  | [] => .ok ()
  | cd :: rest =>
    if cd.data.IsSnapshot then checkIntegrityChildren snapshotName found rest
    else
      match checkSnapshotHierarchyIntegrity cd snapshotName found with
      | .error e => .error e
      | .ok _ => checkIntegrityChildren snapshotName found rest

end

/-! ## inverseOrigin (promotion transaction) -/

/-- In-memory state touched by `inverseOrigin`: the demoted dataset, the
promoted clone, and the global name registry (`t.Zfs.allDatasets`,
mapping a name to the node — a pointer in Go, the node value here —
owning it). -/
structure PromotionState where
  oldOrigin : Dataset
  newOrigin : Dataset
  allDatasets : String → Option Dataset

/-- Index of the first child whose pointer (modelled by `id`) equals
`sid`: the successful-search part of the `for j = range children` loop
of `inverseOrigin`. -/
def findIdxById : List Dataset → Nat → Option Nat
  | [], _ => none
  | c :: rest, sid =>
    if c.data.id == sid then some 0 else (findIdxById rest sid).map (· + 1)

/-- The `j := -1; for j = range children { if children[j] == s { break } }`
search of `inverseOrigin`, with Go semantics: when the loop runs to
completion without a match, `j` holds the last index assigned by
`range`, i.e. `len-1` for a nonempty slice and `-1` only for an empty
one.  Pointer comparison is `id` comparison. -/
def goFindIndexById (cs : List Dataset) (sid : Nat) : Int :=
  match findIdxById cs sid with
  | some k => (k : Int)
  | none => (cs.length : Int) - 1

/-- One iteration of the migration loop of `inverseOrigin` for a selected
snapshot `s`: rename it under the promoted dataset's name, append it to
the promoted children, remove it (by identity) from the demoted
children, and update the registry (insert new name, then delete old
name). -/
def migrateOne (st : PromotionState) (s : Dataset) : Except String PromotionState :=
  let oldName := s.data.Name
  let n := (splitSnapshotName oldName).2
  let newName := st.newOrigin.data.Name ++ "@" ++ n
  let s1 := Dataset.node { s.data with Name := newName } s.children
  let newOrig := Dataset.node st.newOrigin.data (st.newOrigin.children ++ [s1])
  let j := goFindIndexById st.oldOrigin.children s.data.id
  if j < 0 then
    .error ("cannot find old snapshot name " ++ oldName ++ " on " ++ st.oldOrigin.data.Name)
  else
    let oldOrig := Dataset.node st.oldOrigin.data
      (st.oldOrigin.children.take j.toNat ++ st.oldOrigin.children.drop (j.toNat + 1))
    .ok { oldOrigin := oldOrig, newOrigin := newOrig,
          allDatasets := fun k =>
            if k = oldName then none
            else if k = newName then some s1
            else st.allDatasets k }

/-- The `for i := range snapshotsToMigrate` loop. -/
def migrateAll (st : PromotionState) : List Dataset → Except String PromotionState
  | [] => .ok st
  | s :: rest =>
    match migrateOne st s with
    | .error e => .error e
    | .ok st1 => migrateAll st1 rest

/-- The new name a migrating snapshot receives in the loop's in-place
rename (`s.Name = newOrigDataset.Name + "@" + n`): the promoted
dataset's name, `@`, and the snapshot's original trailing name. -/
def renamedNameBy (nn : String) (s : Dataset) : String :=
  nn ++ "@" ++ (splitSnapshotName s.data.Name).2

/-- A migrating snapshot after its in-place rename (same node, new
name). -/
def renamedBy (nn : String) (s : Dataset) : Dataset :=
  Dataset.node { s.data with Name := renamedNameBy nn s } s.children

/-- Go `(*nestedTransaction).inverseOrigin`.  `findDatasetByName` is not
part of helpers.go; modelled from the spec as the registry lookup
(`DatasetNotFoundError` when the recorded origin is absent).  In Go,
`baseSnapshot` is a pointer aliasing the tree node that owns that name,
so the final `oldOrigDataset.Origin = baseSnapshot.Name` observes the
in-place rename of the migration loop whenever the base snapshot itself
migrated (it always does when it is a snapshot child of the demoted
dataset, since `LastUsed <= LastUsed`); the alias is resolved here by
pointer (`id`) identity against the selected snapshots. -/
def inverseOrigin (st : PromotionState) : Except String PromotionState :=
  match st.allDatasets st.newOrigin.data.prop.Origin with
  | none => .error ("cannot find base snapshot " ++ st.newOrigin.data.prop.Origin)
  | some baseSnapshot =>
    let snapshotsToMigrate := st.oldOrigin.children.filter fun c =>
      c.data.IsSnapshot && !(decide (c.data.prop.LastUsed > baseSnapshot.data.prop.LastUsed))
    match migrateAll st snapshotsToMigrate with
    | .error e => .error e
    | .ok st1 =>
      let baseSnapshotName :=
        match snapshotsToMigrate.find? (fun s => s.data.id == baseSnapshot.data.id) with
        | some s => renamedNameBy st.newOrigin.data.Name s
        | none => baseSnapshot.data.Name
      .ok { st1 with
            oldOrigin := Dataset.node
              { st1.oldOrigin.data with prop :=
                  { st1.oldOrigin.data.prop with Origin := baseSnapshotName } }
              st1.oldOrigin.children,
            newOrigin := Dataset.node
              { st1.newOrigin.data with prop :=
                  { st1.newOrigin.data.prop with Origin := "" } }
              st1.newOrigin.children }

/-! ## Observation helpers for concrete runs -/

/-- Mountpoint of the node reached by the child-index path `p`. -/
def mountpointAt : Dataset → List Nat → Option String
  | d, [] => some d.data.prop.Mountpoint
  | d, i :: is =>
    match d.children.drop i with
    | [] => none
    | c :: _ => mountpointAt c is

/-- Mountpoint at a path inside a successful `setProperty` result. -/
def spMountpointAt (r : SetPropertyResult) (p : List Nat) : Option String :=
  match r with
  | .ok d => mountpointAt d p
  | _ => none

/-- `LastUsed` of the root of a successful `setProperty` result. -/
def spLastUsed (r : SetPropertyResult) : Option Int :=
  match r with
  | .ok d => some d.data.prop.LastUsed
  | _ => none

/-- Sequence two `setProperty`-style steps on the in-memory model. -/
def spAndThen (r : SetPropertyResult) (f : Dataset → SetPropertyResult) : SetPropertyResult :=
  match r with
  | .ok d => f d
  | e => e

/-- Names of the demoted dataset's children after a promotion step. -/
def promOldChildNames (r : Except String PromotionState) : Option (List String) :=
  (r.toOption).map fun st => st.oldOrigin.children.map fun c => c.data.Name

/-! ## Decimal round-trip lemmas -/

theorem parseDigitsAcc_append (a : Nat) (xs ys : List Char) :
    parseDigitsAcc a (xs ++ ys) =
      match parseDigitsAcc a xs with
      | none => none
      | some b => parseDigitsAcc b ys := by
  induction xs generalizing a with
  | nil => simp [parseDigitsAcc]
  | cons c cs ih =>
    simp only [List.cons_append, parseDigitsAcc]
    cases digitVal? c with
    | none => rfl
    | some d => exact ih (a * 10 + d)

theorem digitVal?_digitChar (k : Nat) (h : k < 10) : digitVal? (digitChar k) = some k := by
  interval_cases k <;> decide

theorem natToDigitsCore_ne_nil (fuel : Nat) :
    ∀ n, n < fuel → natToDigitsCore fuel n ≠ [] := by
  induction fuel with
  | zero => omega
  | succ fuel _ih =>
    intro n _hn
    rw [natToDigitsCore]
    split
    · simp
    · simp

theorem natToDigits_ne_nil (n : Nat) : natToDigits n ≠ [] :=
  natToDigitsCore_ne_nil (n + 1) n (by omega)

theorem parseDigitsAcc_natToDigitsCore (fuel : Nat) :
    ∀ n, n < fuel → parseDigitsAcc 0 (natToDigitsCore fuel n) = some n := by
  induction fuel with
  | zero => omega
  | succ fuel ih =>
    intro n hn
    rw [natToDigitsCore]
    split
    · rename_i h
      simp [parseDigitsAcc, digitVal?_digitChar n h]
    · rename_i h
      rw [parseDigitsAcc_append]
      have hd : n / 10 < n := Nat.div_lt_self (by omega) (by omega)
      rw [ih (n / 10) (by omega)]
      have hm : n % 10 < 10 := Nat.mod_lt _ (by omega)
      simp [parseDigitsAcc, digitVal?_digitChar (n % 10) hm]
      omega

theorem parseDigitsAcc_natToDigits (n : Nat) : parseDigitsAcc 0 (natToDigits n) = some n :=
  parseDigitsAcc_natToDigitsCore (n + 1) n (by omega)

theorem natToDigitsCore_head_digit (fuel : Nat) :
    ∀ n, n < fuel → ∃ c cs, natToDigitsCore fuel n = c :: cs ∧ digitVal? c ≠ none := by
  induction fuel with
  | zero => omega
  | succ fuel ih =>
    intro n hn
    rw [natToDigitsCore]
    split
    · rename_i h
      exact ⟨digitChar n, [], rfl, by simp [digitVal?_digitChar n h]⟩
    · rename_i h
      have hd : n / 10 < n := Nat.div_lt_self (by omega) (by omega)
      obtain ⟨c, cs, hcons, hdig⟩ := ih (n / 10) (by omega)
      exact ⟨c, cs ++ [digitChar (n % 10)], by rw [hcons]; rfl, hdig⟩

theorem natToDigits_head_digit (n : Nat) :
    ∃ c cs, natToDigits n = c :: cs ∧ digitVal? c ≠ none :=
  natToDigitsCore_head_digit (n + 1) n (by omega)

theorem atoiGo_itoaGo (n : Int) : atoiGo (itoaGo n) = some n := by
  unfold itoaGo
  split
  · rename_i hneg
    have hdata : ("-" ++ String.mk (natToDigits n.natAbs)).toList = '-' :: natToDigits n.natAbs := by
      show ("-" ++ String.mk (natToDigits n.natAbs)).data = '-' :: natToDigits n.natAbs
      rw [String.data_append]
      rfl
    unfold atoiGo
    rw [hdata]
    simp only [atoiChars, if_pos rfl, parseDigitsNE,
      if_neg (natToDigits_ne_nil n.natAbs), parseDigitsAcc_natToDigits]
    have : -((n.natAbs : Nat) : Int) = n := by omega
    rw [this]
    simp
  · rename_i hpos
    have hdata : (String.mk (natToDigits n.natAbs)).toList = natToDigits n.natAbs := rfl
    obtain ⟨c, cs, hcons, hdig⟩ := natToDigits_head_digit n.natAbs
    have hcm : c ≠ '-' := by
      intro hc
      rw [hc] at hdig
      exact hdig (by decide)
    have hcp : c ≠ '+' := by
      intro hc
      rw [hc] at hdig
      exact hdig (by decide)
    unfold atoiGo
    rw [hdata, hcons]
    simp only [atoiChars, if_neg hcm, if_neg hcp]
    rw [← hcons]
    simp only [parseDigitsNE, if_neg (natToDigits_ne_nil n.natAbs), parseDigitsAcc_natToDigits]
    have : ((n.natAbs : Nat) : Int) = n := by omega
    rw [this]

/-! ## Claim C10: malformed frozen snapshot value is treated as absent -/

/-- C10: for a snapshot whose user property is locally set but whose
stored value contains no `:` separator, `getUserPropertyFromSys`
returns empty value, empty source and no error — the malformed frozen
value is silently treated as absent rather than surfaced as a decoding
error. -/
theorem C10_malformed_frozen_value_treated_absent (prop : String) (z : LibzfsDataset)
    (p : LibzfsProperty) (hsnap : z.isSnapshot = true) (hp : z.userProps prop = some p)
    (hsrc : p.Source = "local") (hcolon : lastIndexOfChar p.Value.toList ':' = none) :
    getUserPropertyFromSys prop z = .ok ("", "") := by
  have hcolon' : lastIndexOfChar p.Value.data ':' = none := hcolon
  simp [getUserPropertyFromSys, hp, hsnap, hsrc, hcolon']

/-- Concrete input for the C10 witness: a snapshot whose frozen property
value `"abc"` has no `:`. -/
def c10z : LibzfsDataset :=
  { isSnapshot := true, userProps := fun _ => some { Value := "abc", Source := "local" } }

/-- Witness for C10 at a concrete snapshot. -/
theorem C10_malformed_frozen_value_treated_absent_witness :
    c10z.isSnapshot = true ∧
    c10z.userProps SnapshotMountpointProp = some { Value := "abc", Source := "local" } ∧
    ({ Value := "abc", Source := "local" } : LibzfsProperty).Source = "local" ∧
    lastIndexOfChar ("abc" : String).toList ':' = none ∧
    getUserPropertyFromSys SnapshotMountpointProp c10z = .ok ("", "") :=
  ⟨rfl, rfl, rfl, rfl,
    C10_malformed_frozen_value_treated_absent SnapshotMountpointProp c10z
      { Value := "abc", Source := "local" } rfl rfl rfl rfl⟩

/-! ## Claim C6: snapshot custom-property resolution -/

/-- The final source sanitization of `getUserPropertyFromSys`. -/
def sanitizeSource (s : String) : String :=
  if s != "local" && s != "default" then "inherited" else s

/-- C6 (amended): for a snapshot, a custom property whose backend source
is not `"local"` resolves to empty value, empty source, no error; when
it is local, the packed value splits on its last `:` into value and
frozen provenance, and the reported provenance is that frozen
provenance sanitized — which, contrary to the original claim, can
itself be `"inherited"`. -/
theorem C6_snapshot_user_property_unpack (prop : String) (z : LibzfsDataset)
    (p : LibzfsProperty) (hsnap : z.isSnapshot = true) (hp : z.userProps prop = some p) :
    (p.Source ≠ "local" → getUserPropertyFromSys prop z = .ok ("", "")) ∧
    (∀ idx, p.Source = "local" → lastIndexOfChar p.Value.toList ':' = some idx →
      getUserPropertyFromSys prop z =
        .ok (String.mk (p.Value.toList.take idx),
             sanitizeSource (String.mk (p.Value.toList.drop (idx + 1))))) := by
  constructor
  · intro h
    simp [getUserPropertyFromSys, hp, hsnap, h]
  · intro idx hsrc hidx
    have hidx' : lastIndexOfChar p.Value.data ':' = some idx := hidx
    simp [getUserPropertyFromSys, hp, hsnap, hsrc, hidx', sanitizeSource]

/-- Concrete input refuting the original C6: a frozen value whose packed
provenance is `"inherited"`. -/
def c6z : LibzfsDataset :=
  { isSnapshot := true,
    userProps := fun _ => some { Value := "yes:inherited", Source := "local" } }

/-- Counterexample to C6 as stated: this snapshot reports provenance
`"inherited"` for a frozen property, while the claim says snapshots
never report `"inherited"` — only locally frozen or absent. -/
theorem C6_counterexample :
    getUserPropertyFromSys BootfsProp c6z = .ok ("yes", "inherited") ∧
    ("inherited" : String) ≠ "" ∧ ("inherited" : String) ≠ "local" :=
  ⟨rfl, by decide, by decide⟩

/-- Witness for the amended C6 at the concrete snapshot `c6z`. -/
theorem C6_snapshot_user_property_unpack_witness :
    c6z.isSnapshot = true ∧
    c6z.userProps BootfsProp = some { Value := "yes:inherited", Source := "local" } ∧
    ((({ Value := "yes:inherited", Source := "local" } : LibzfsProperty).Source ≠ "local" →
        getUserPropertyFromSys BootfsProp c6z = .ok ("", "")) ∧
     (∀ idx, ({ Value := "yes:inherited", Source := "local" } : LibzfsProperty).Source = "local" →
        lastIndexOfChar ("yes:inherited" : String).toList ':' = some idx →
        getUserPropertyFromSys BootfsProp c6z =
          .ok (String.mk (("yes:inherited" : String).toList.take idx),
               sanitizeSource (String.mk (("yes:inherited" : String).toList.drop (idx + 1)))))) :=
  ⟨rfl, rfl,
    C6_snapshot_user_property_unpack BootfsProp c6z
      { Value := "yes:inherited", Source := "local" } rfl rfl⟩

/-! ## Claim C4: backend write failure aborts with no state change -/

/-- C4: for a recognized property name, when the backend write inside
`setProperty` fails, the function returns that error with the dataset's
in-memory state untouched (the `err` result carries the state at
return, which is the input dataset). -/
theorem C4_backend_write_failure_aborts (e : String) (d : Dataset)
    (name value source : String) (r : StringToPropRes)
    (hrec : stringToProp d.data name = some r) :
    setProperty (some e) d name value source = .err e d := by
  unfold setProperty
  rw [hrec]

/-- Witness for C4: a failing backend write on a concrete dataset. -/
theorem C4_backend_write_failure_aborts_witness :
    stringToProp (Dataset.node {} []).data CanmountProp =
      some { np := some .canmount, userProp := CanmountProp, value := "", source := "" } ∧
    setProperty (some "backend boom") (Dataset.node {} []) CanmountProp "noauto" "local" =
      .err "backend boom" (Dataset.node {} []) :=
  ⟨rfl,
    C4_backend_write_failure_aborts "backend boom" (Dataset.node {} []) CanmountProp
      "noauto" "local"
      { np := some .canmount, userProp := CanmountProp, value := "", source := "" } rfl⟩

/-! ## Claim C2: in-memory refresh after a successful setProperty -/

/-- Concrete input exhibiting the C2 divergence: a dataset whose
`LastUsed` is `5`. -/
def c2dataset : Dataset := Dataset.node { prop := { LastUsed := 5 } } []

/-- C2 divergence witness: after a successful
`setProperty(d, LastUsedProp, "42", "local")`, the in-memory `LastUsed`
is still `5` — the code re-parses the stringified old value (the
`value` pointer of `stringToProp` targets a local temporary), so the
new value `42` never reaches the in-memory field, while the claim (and
the cascade branch for children) requires it to become `42`. -/
theorem C2_lastUsed_update_discards_value :
    spLastUsed (setProperty none c2dataset LastUsedProp "42" "local") = some 5 ∧
    (5 : Int) ≠ 42 :=
  ⟨rfl, by decide⟩

/-! ## Claim C5: provenance simplification in RefreshProperties -/

/-- Mountpoint and canMount provenance of a refresh result. -/
def refreshSources (r : Except String DatasetProp) : Option (String × String) :=
  r.toOption.map fun p => (p.sources.Mountpoint, p.sources.CanMount)

/-- Concrete backend state whose mountpoint and canMount both carry the
unexpected source tag `"received"`. -/
def c5z : LibzfsDataset :=
  { mountpointProp := { Value := "/x", Source := "received" },
    canmountProp := { Value := "on", Source := "received" },
    poolAltroot := some "",
    userProps := fun _ => some { Value := "-", Source := "-" } }

/-- Counterexample to C5 as stated: with source tag `"received"`, the
stored mountpoint provenance is `"inherited"` but the canMount
provenance is the default marker `""`, not `"inherited"` as the claim
asserts for both. -/
theorem C5_counterexample :
    refreshSources (RefreshProperties false c5z) = some ("inherited", "") ∧
    ("" : String) ≠ "inherited" :=
  ⟨rfl, by decide⟩

/-- C5 (amended): for a non-snapshot dataset, a successful
`RefreshProperties` stores mountpoint provenance `"local"`,
`""` (default) or `"inherited"` according to the backend tag, but
canMount provenance is `"local"` for tag `"local"` and the default
marker `""` for every other tag (including `"default"` and unexpected
tags) — it never collapses to `"inherited"`. -/
theorem C5_source_simplification (z : LibzfsDataset) (p : DatasetProp)
    (h : RefreshProperties false z = .ok p) :
    p.sources.Mountpoint = (if z.mountpointProp.Source = "local" then "local"
                            else if z.mountpointProp.Source = "default" then "" else "inherited") ∧
    p.sources.CanMount = (if z.canmountProp.Source = "local" then "local" else "") := by
  unfold RefreshProperties at h
  cases hpool : z.poolAltroot with
  | none =>
    rw [hpool] at h
    simp at h
  | some poolRoot =>
    rw [hpool] at h
    simp only [Bool.false_eq_true, if_false, Bool.not_false, if_true] at h
    split at h
    · exact absurd h (by simp)
    · split at h
      · exact absurd h (by simp)
      · split at h
        · exact absurd h (by simp)
        · split at h
          · exact absurd h (by simp)
          · split at h
            · exact absurd h (by simp)
            · simp only [Except.ok.injEq] at h
              subst h
              refine ⟨rfl, ?_⟩
              by_cases hl : z.canmountProp.Source = "local" <;> simp [hl]

/-- The refresh result for `c5z`, spelled out. -/
def c5prop : DatasetProp :=
  { Mountpoint := "/x", CanMount := "on", Mounted := false, BootFS := false,
    LastUsed := 0, LastBootedKernel := "", BootfsDatasets := "", Origin := "",
    sources := { Mountpoint := "inherited", CanMount := "", BootFS := "",
                 LastUsed := "", LastBootedKernel := "", BootfsDatasets := "" } }

/-- Witness for the amended C5 at the concrete backend state `c5z`. -/
theorem C5_source_simplification_witness :
    RefreshProperties false c5z = .ok c5prop ∧
    (c5prop.sources.Mountpoint = (if c5z.mountpointProp.Source = "local" then "local"
        else if c5z.mountpointProp.Source = "default" then "" else "inherited") ∧
     c5prop.sources.CanMount = (if c5z.canmountProp.Source = "local" then "local" else "")) :=
  ⟨rfl, C5_source_simplification c5z c5prop rfl⟩

/-! ## Claim C9: removal of a selected snapshot not found by identity -/

/-- Demoted dataset for the C9 divergence run: one snapshot child
`old@keep`. -/
def c9state : PromotionState :=
  { oldOrigin := Dataset.node { id := 1, Name := "old" }
      [Dataset.node { id := 5, Name := "old@keep", IsSnapshot := true } []],
    newOrigin := Dataset.node { id := 2, Name := "new" } [],
    allDatasets := fun _ => none }

/-- A snapshot that is not (by identity) among the demoted children. -/
def c9snap : Dataset := Dataset.node { id := 77, Name := "old@gone", IsSnapshot := true } []

/-- C9 divergence witness: removing a selected snapshot that is absent by
identity does not fail — `for j = range children` leaves `j` at the
last index after an unsuccessful search over a nonempty slice, so the
guard `j < 0` never fires and the last child (`old@keep`) is silently
removed instead.  The claim (and the error message in the source)
requires a fatal "cannot find old snapshot name" failure with no other
child removed. -/
theorem C9_silent_removal_of_wrong_child :
    (c9state.oldOrigin.children.map fun c => c.data.Name) = ["old@keep"] ∧
    (c9snap.data.id ∈ c9state.oldOrigin.children.map fun c => c.data.id) = False ∧
    promOldChildNames (migrateOne c9state c9snap) = some [] :=
  ⟨rfl, by simp [c9state, c9snap], rfl⟩

/-! ## Claim C7: snapshot-hierarchy integrity -/

/-- A dataset holds a snapshot named after itself with trailing name `N`. -/
def holdsSnapshot (d : Dataset) (N : String) : Bool :=
  d.children.any fun cd => cd.data.Name == d.data.Name ++ "@" ++ N

/-- Occurrence of a node in a dataset subtree. -/
inductive Occurs : Dataset → Dataset → Prop where
  | refl (d : Dataset) : Occurs d d
  | child {x c d : Dataset} (hc : c ∈ d.children) (h : Occurs x c) : Occurs x d

theorem sizeOf_pos_dataset (d : Dataset) : 1 ≤ sizeOf d := by
  cases d
  simp
  omega

/-- Every integrity error produced anywhere in the recursion is the
integrity message of a node that actually holds the offending
snapshot. -/
theorem integrity_error_form_aux (n : Nat) :
    (∀ d : Dataset, sizeOf d ≤ n → ∀ N flag e,
      checkSnapshotHierarchyIntegrity d N flag = .error e →
      ∃ x, Occurs x d ∧ e = integrityMsg x.data.Name N ∧ holdsSnapshot x N = true) ∧
    (∀ cs : List Dataset, sizeOf cs ≤ n → ∀ N flag e,
      checkIntegrityChildren N flag cs = .error e →
      ∃ x, (∃ c, c ∈ cs ∧ Occurs x c) ∧ e = integrityMsg x.data.Name N ∧
        holdsSnapshot x N = true) := by
  induction n with
  | zero =>
    constructor
    · intro d hd
      have := sizeOf_pos_dataset d
      omega
    · intro cs hcs N flag e he
      cases cs with
      | nil => simp [checkIntegrityChildren] at he
      | cons c rest =>
        have := sizeOf_pos_dataset c
        simp only [List.cons.sizeOf_spec] at hcs
        omega
  | succ n ih =>
    constructor
    · intro d hd N flag e he
      cases d with
      | node data cs =>
        rw [checkSnapshotHierarchyIntegrity] at he
        split at he
        · rename_i hcond
          refine ⟨Dataset.node data cs, Occurs.refl _, ?_, ?_⟩
          · simpa using he.symm
          · simp only [Bool.and_eq_true] at hcond
            exact hcond.1
        · have hsz : sizeOf cs ≤ n := by
            simp at hd
            omega
          obtain ⟨x, ⟨c, hc, hocc⟩, hmsg, hholds⟩ := ih.2 cs hsz N _ e he
          exact ⟨x, Occurs.child hc hocc, hmsg, hholds⟩
    · intro cs hcs N flag e he
      cases cs with
      | nil => simp [checkIntegrityChildren] at he
      | cons c rest =>
        have hszc : sizeOf c ≤ n := by
          simp at hcs
          omega
        have hszr : sizeOf rest ≤ n := by
          have := sizeOf_pos_dataset c
          simp at hcs
          omega
        rw [checkIntegrityChildren] at he
        split at he
        · obtain ⟨x, ⟨c', hc', hocc⟩, hmsg, hholds⟩ := ih.2 rest hszr N flag e he
          exact ⟨x, ⟨c', List.mem_cons_of_mem _ hc', hocc⟩, hmsg, hholds⟩
        · split at he
          · rename_i e2 heq2
            cases he
            obtain ⟨x, hocc, hmsg, hholds⟩ := ih.1 c hszc N _ _ heq2
            exact ⟨x, ⟨c, List.mem_cons_self _ _, hocc⟩, hmsg, hholds⟩
          · obtain ⟨x, ⟨c', hc', hocc⟩, hmsg, hholds⟩ := ih.2 rest hszr N flag e he
            exact ⟨x, ⟨c', List.mem_cons_of_mem _ hc', hocc⟩, hmsg, hholds⟩

/-- A node that holds `<name>@N` fails the check when its parent was
flagged as not having the snapshot. -/
theorem check_node_with_snapshot_errors (c : Dataset) (N : String)
    (h : holdsSnapshot c N = true) :
    checkSnapshotHierarchyIntegrity c N false = .error (integrityMsg c.data.Name N) := by
  cases c with
  | node data cs =>
    rw [checkSnapshotHierarchyIntegrity]
    have : cs.any (fun cd => cd.data.Name == data.Name ++ "@" ++ N) = true := h
    rw [this]
    rfl

/-- If some non-snapshot member of `cs` fails its recursive check with the
parent flag `flag`, the child loop fails. -/
theorem checkIntegrityChildren_error_of_mem (N : String) (flag : Bool) :
    ∀ cs : List Dataset,
    (∃ c ∈ cs, c.data.IsSnapshot = false ∧
      ∃ e, checkSnapshotHierarchyIntegrity c N flag = .error e) →
    ∃ e, checkIntegrityChildren N flag cs = .error e := by
  intro cs
  induction cs with
  | nil => rintro ⟨c, hc, _⟩; simp at hc
  | cons c rest ih =>
    rintro ⟨c', hc', hsnap', e', he'⟩
    rw [checkIntegrityChildren]
    rcases List.mem_cons.mp hc' with rfl | hmem
    · rw [if_neg (by simp [hsnap'])]
      rw [he']
      exact ⟨e', rfl⟩
    · split
      · exact ih ⟨c', hmem, hsnap', e', he'⟩
      · split
        · rename_i e'' _
          exact ⟨e'', rfl⟩
        · exact ih ⟨c', hmem, hsnap', e', he'⟩

/-- The child loop succeeds over a list of snapshots. -/
theorem checkIntegrityChildren_all_snapshots (N : String) (flag : Bool) :
    ∀ gs : List Dataset, (∀ g ∈ gs, g.data.IsSnapshot = true) →
    checkIntegrityChildren N flag gs = .ok () := by
  intro gs
  induction gs with
  | nil => intro; rfl
  | cons g rest ih =>
    intro hall
    rw [checkIntegrityChildren]
    rw [if_pos (hall g (List.mem_cons_self _ _))]
    exact ih fun g' hg' => hall g' (List.mem_cons_of_mem _ hg')

/-- The child loop succeeds when every non-snapshot member's check
succeeds. -/
theorem checkIntegrityChildren_ok_of_all (N : String) (flag : Bool) :
    ∀ cs : List Dataset,
    (∀ c ∈ cs, c.data.IsSnapshot = false →
      checkSnapshotHierarchyIntegrity c N flag = .ok ()) →
    checkIntegrityChildren N flag cs = .ok () := by
  intro cs
  induction cs with
  | nil => intro; rfl
  | cons c rest ih =>
    intro hall
    rw [checkIntegrityChildren]
    by_cases hsnap : c.data.IsSnapshot = true
    · rw [if_pos hsnap]
      exact ih fun c' hc' h' => hall c' (List.mem_cons_of_mem _ hc') h'
    · rw [if_neg hsnap]
      rw [hall c (List.mem_cons_self _ _) (by simpa using hsnap)]
      exact ih fun c' hc' h' => hall c' (List.mem_cons_of_mem _ hc') h'

/-- C7: (1) at a root that lacks `root@N`, the check seeded with `false`
returns an integrity error naming `x@N` for a node `x` of the subtree
that holds the snapshot `x@N`, whenever some non-snapshot child of the
root holds its own `<child>@N`; (2) seeded with `true` at a root that
has `root@N`, the check succeeds for children regardless of whether
they hold the snapshot (here: children whose own children are all
snapshots, so that no deeper recomputed flag is involved). -/
theorem C7_snapshot_hierarchy_integrity (root : Dataset) (N : String) :
    ((∀ ch ∈ root.children, ¬ch.data.Name = root.data.Name ++ "@" ++ N) →
     (∃ c ∈ root.children, c.data.IsSnapshot = false ∧ holdsSnapshot c N = true) →
     ∃ x, checkSnapshotHierarchyIntegrity root N false = .error (integrityMsg x.data.Name N) ∧
       Occurs x root ∧ holdsSnapshot x N = true) ∧
    ((root.children.any fun ch => ch.data.Name == root.data.Name ++ "@" ++ N) = true →
     (∀ c ∈ root.children, c.data.IsSnapshot = false →
        ∀ g ∈ c.children, g.data.IsSnapshot = true) →
     checkSnapshotHierarchyIntegrity root N true = .ok ()) := by
  constructor
  · intro hno ⟨c, hc, hcsnap, hcholds⟩
    obtain ⟨e, he⟩ : ∃ e, checkSnapshotHierarchyIntegrity root N false = .error e := by
      cases root with
      | node data cs =>
        rw [checkSnapshotHierarchyIntegrity]
        have hfound : (cs.any fun cd => cd.data.Name == data.Name ++ "@" ++ N) = false := by
          rw [List.any_eq_false]
          intro ch hch
          simpa using hno ch hch
        rw [hfound]
        simp only [Bool.false_and, Bool.and_eq_true]
        refine checkIntegrityChildren_error_of_mem N false cs ⟨c, hc, hcsnap, ?_⟩
        exact ⟨integrityMsg c.data.Name N, check_node_with_snapshot_errors c N hcholds⟩
    obtain ⟨x, hocc, hmsg, hholds⟩ :=
      (integrity_error_form_aux (sizeOf root)).1 root (Nat.le_refl _) N false e he
    exact ⟨x, by rw [he, hmsg], hocc, hholds⟩
  · intro hroot hgrand
    cases root with
    | node data cs =>
      rw [checkSnapshotHierarchyIntegrity]
      simp only [Bool.not_true, Bool.and_false, if_neg (by simp : ¬(false = true))]
      have hfound : (cs.any fun cd => cd.data.Name == data.Name ++ "@" ++ N) = true := hroot
      rw [hfound]
      refine checkIntegrityChildren_ok_of_all N true cs fun c hc hcsnap => ?_
      cases c with
      | node cdata ccs =>
        rw [checkSnapshotHierarchyIntegrity]
        simp only [Bool.not_true, Bool.and_false, if_neg (by simp : ¬(false = true))]
        exact checkIntegrityChildren_all_snapshots N _ ccs (hgrand _ hc hcsnap)

/-- Concrete trees for the C7 witness: `r` with child `r/a` holding
`r/a@daily`. -/
def c7childA : Dataset :=
  Dataset.node { id := 1, Name := "r/a" }
    [Dataset.node { id := 9, Name := "r/a@daily", IsSnapshot := true } []]

/-- Root without `r@daily`. -/
def c7root1 : Dataset := Dataset.node { id := 0, Name := "r" } [c7childA]

/-- Root with `r@daily` (and the same child `r/a`). -/
def c7root2 : Dataset :=
  Dataset.node { id := 0, Name := "r" }
    [Dataset.node { id := 8, Name := "r@daily", IsSnapshot := true } [], c7childA]

/-- Witness for C7 at the spec's concrete example. -/
theorem C7_snapshot_hierarchy_integrity_witness :
    ((∀ ch ∈ c7root1.children, ¬ch.data.Name = c7root1.data.Name ++ "@" ++ "daily") ∧
     (∃ c ∈ c7root1.children, c.data.IsSnapshot = false ∧ holdsSnapshot c "daily" = true) ∧
     ∃ x, checkSnapshotHierarchyIntegrity c7root1 "daily" false =
            .error (integrityMsg x.data.Name "daily") ∧
          Occurs x c7root1 ∧ holdsSnapshot x "daily" = true) ∧
    ((c7root2.children.any fun ch => ch.data.Name == c7root2.data.Name ++ "@" ++ "daily") = true ∧
     (∀ c ∈ c7root2.children, c.data.IsSnapshot = false →
        ∀ g ∈ c.children, g.data.IsSnapshot = true) ∧
     checkSnapshotHierarchyIntegrity c7root2 "daily" true = .ok ()) :=
  ⟨⟨by decide, by decide,
    (C7_snapshot_hierarchy_integrity c7root1 "daily").1 (by decide) (by decide)⟩,
   ⟨by decide, by decide,
    (C7_snapshot_hierarchy_integrity c7root2 "daily").2 (by decide) (by decide)⟩⟩

/-! ## Claim C3: the mountpoint cascade and locally-overridden branches -/

/-- The root→A→B→C chain of the spec's cascade example: B overrides
mountpoint locally, C inherits (from B). -/
def c3nodeC : Dataset :=
  Dataset.node
    { id := 3, Name := "p/a/b/c",
      prop := { Mountpoint := "/custom/c", sources := { Mountpoint := "inherited" } } } []

/-- B: mountpoint locally set to `/custom`. -/
def c3nodeB : Dataset :=
  Dataset.node
    { id := 2, Name := "p/a/b",
      prop := { Mountpoint := "/custom", sources := { Mountpoint := "local" } } } [c3nodeC]

/-- A: inherits mountpoint from the root. -/
def c3nodeA : Dataset :=
  Dataset.node
    { id := 1, Name := "p/a",
      prop := { Mountpoint := "/old/a", sources := { Mountpoint := "inherited" } } } [c3nodeB]

/-- The root of the chain. -/
def c3root : Dataset :=
  Dataset.node
    { id := 0, Name := "p",
      prop := { Mountpoint := "/old", sources := { Mountpoint := "local" } } } [c3nodeA]

/-- Counterexample to C3 as stated: after
`setProperty(root, mountpoint, "/new", "local")`, C's mountpoint is its
old value `/custom/c` — it is not rewritten to
`Join("/new", suffix of C relative to B's old base)` = `/new/c` as the
claim asserts, because the traversal does not descend past the
locally-overridden B. -/
theorem C3_counterexample :
    spMountpointAt (setProperty none c3root MountPointProp "/new" "local") [0, 0, 0] =
      some "/custom/c" ∧
    spMountpointAt (setProperty none c3root MountPointProp "/new" "local") [0, 0] =
      some "/custom" ∧
    filepathJoin "/new" (trimPrefixGo "/custom/c" "/custom") = "/new/c" ∧
    ("/custom/c" : String) ≠ "/new/c" :=
  ⟨rfl, rfl, rfl, by decide⟩

/-- C3 (amended): for any chain root→A→B→(B's subtree), with A a
non-snapshot child inheriting mountpoint and B a non-snapshot child of
A with mountpoint locally set, `setProperty(root, mountpoint, v,
"local")` rewrites A's mountpoint to `v` joined with A's suffix
relative to the root's old mountpoint, and leaves B — and B's entire
subtree, hence C — completely unchanged: the cascade stops descending
at B, so nothing below it is rewritten. -/
theorem C3_cascade_stops_at_local_override (rd ad bd : DatasetData) (bcs : List Dataset)
    (v : String)
    (has : ad.IsSnapshot = false)
    (hasrc : ad.prop.sources.Mountpoint = "inherited")
    (hbs : bd.IsSnapshot = false)
    (hbsrc : bd.prop.sources.Mountpoint = "local") :
    setProperty none (Dataset.node rd [Dataset.node ad [Dataset.node bd bcs]])
        MountPointProp v "local" =
      .ok (Dataset.node (destSWrite MountPointProp "local" (destVWrite MountPointProp v rd))
        [Dataset.node
          (destSWrite MountPointProp "inherited"
            (destVWrite MountPointProp
              (filepathJoin v (trimPrefixGo ad.prop.Mountpoint rd.prop.Mountpoint)) ad))
          [Dataset.node bd bcs]]) := by
  simp only [setProperty, stringToProp, MountPointProp, CanmountProp, SnapshotCanmountProp,
    SnapshotMountpointProp, BootfsProp, LastUsedProp, BootfsDatasetsProp, LastBootedKernelProp,
    runCascade, cascadeList, cascadeChild, applyCascadeUpdate, destVWrite, destSWrite,
    Dataset.data_node, Dataset.children_node, has, hasrc, hbs, hbsrc]
  simp

/-- Witness for the amended C3 at the concrete chain. -/
theorem C3_cascade_stops_at_local_override_witness :
    c3nodeA.data.IsSnapshot = false ∧
    c3nodeA.data.prop.sources.Mountpoint = "inherited" ∧
    c3nodeB.data.IsSnapshot = false ∧
    c3nodeB.data.prop.sources.Mountpoint = "local" ∧
    setProperty none
        (Dataset.node c3root.data [Dataset.node c3nodeA.data [Dataset.node c3nodeB.data [c3nodeC]]])
        MountPointProp "/new" "local" =
      .ok (Dataset.node
            (destSWrite MountPointProp "local" (destVWrite MountPointProp "/new" c3root.data))
        [Dataset.node
          (destSWrite MountPointProp "inherited"
            (destVWrite MountPointProp
              (filepathJoin "/new"
                (trimPrefixGo c3nodeA.data.prop.Mountpoint c3root.data.prop.Mountpoint))
              c3nodeA.data))
          [Dataset.node c3nodeB.data [c3nodeC]]]) :=
  ⟨rfl, rfl, rfl, rfl,
    C3_cascade_stops_at_local_override c3root.data c3nodeA.data c3nodeB.data [c3nodeC]
      "/new" rfl rfl rfl rfl⟩

/-! ## Claim C8: idempotence of setProperty -/

/-- The recognized property names other than `MountPointProp` (the
mountpoint cascade's path rewriting is the one non-idempotent case). -/
def nonMountpointRecognized (name : String) : Prop :=
  name = CanmountProp ∨ name = SnapshotCanmountProp ∨ name = SnapshotMountpointProp ∨
  name = BootfsProp ∨ name = LastUsedProp ∨ name = BootfsDatasetsProp ∨
  name = LastBootedKernelProp

/-- Applying the cascade refresh twice with the same captured value is the
identity on the second application, and the refreshed node reports
provenance `"inherited"` for the property. -/
theorem applyCascadeUpdate_idem (name : String) (hname : nonMountpointRecognized name)
    (oldMP value v1 : String) (cd cd1 : DatasetData)
    (h : applyCascadeUpdate name oldMP value cd = .ok (v1, cd1)) :
    applyCascadeUpdate name oldMP value cd1 = .ok (v1, cd1) ∧
    (stringToProp cd1 name).map StringToPropRes.source = some "inherited" ∧
    cd1.IsSnapshot = cd.IsSnapshot := by
  obtain ⟨i, nm, snap, mp, cm, mtd, bfs, lu, lbk, bfd, org, sm, sc, sb, slu, slbk, sbfd, hcd⟩ :
      ∃ i nm snap mp cm mtd bfs lu lbk bfd org sm sc sb slu slbk sbfd, cd =
        ⟨i, nm, snap, ⟨mp, cm, mtd, bfs, lu, lbk, bfd, org, ⟨sm, sc, sb, slu, slbk, sbfd⟩⟩⟩ := by
    obtain ⟨i, nm, snap, ⟨mp, cm, mtd, bfs, lu, lbk, bfd, org, ⟨sm, sc, sb, slu, slbk, sbfd⟩⟩⟩ := cd
    exact ⟨i, nm, snap, mp, cm, mtd, bfs, lu, lbk, bfd, org, sm, sc, sb, slu, slbk, sbfd, rfl⟩
  subst hcd
  rcases hname with rfl | rfl | rfl | rfl | rfl | rfl | rfl
  · simp [applyCascadeUpdate, CanmountProp, BootfsProp, LastUsedProp, MountPointProp,
      destVWrite, destSWrite, SnapshotCanmountProp, SnapshotMountpointProp, BootfsDatasetsProp,
      LastBootedKernelProp] at h
    obtain ⟨rfl, rfl⟩ := h
    refine ⟨?_, ?_, rfl⟩
    · simp [applyCascadeUpdate, CanmountProp, BootfsProp, LastUsedProp, MountPointProp,
        destVWrite, destSWrite, SnapshotCanmountProp, SnapshotMountpointProp, BootfsDatasetsProp,
        LastBootedKernelProp]
    · simp [stringToProp, CanmountProp, BootfsProp, LastUsedProp, MountPointProp,
        SnapshotCanmountProp, SnapshotMountpointProp, BootfsDatasetsProp, LastBootedKernelProp]
  · simp [applyCascadeUpdate, CanmountProp, BootfsProp, LastUsedProp, MountPointProp,
      destVWrite, destSWrite, SnapshotCanmountProp, SnapshotMountpointProp, BootfsDatasetsProp,
      LastBootedKernelProp] at h
    obtain ⟨rfl, rfl⟩ := h
    refine ⟨?_, ?_, rfl⟩
    · simp [applyCascadeUpdate, CanmountProp, BootfsProp, LastUsedProp, MountPointProp,
        destVWrite, destSWrite, SnapshotCanmountProp, SnapshotMountpointProp, BootfsDatasetsProp,
        LastBootedKernelProp]
    · simp [stringToProp, CanmountProp, BootfsProp, LastUsedProp, MountPointProp,
        SnapshotCanmountProp, SnapshotMountpointProp, BootfsDatasetsProp, LastBootedKernelProp]
  · simp [applyCascadeUpdate, CanmountProp, BootfsProp, LastUsedProp, MountPointProp,
      destVWrite, destSWrite, SnapshotCanmountProp, SnapshotMountpointProp, BootfsDatasetsProp,
      LastBootedKernelProp] at h
    obtain ⟨rfl, rfl⟩ := h
    refine ⟨?_, ?_, rfl⟩
    · simp [applyCascadeUpdate, CanmountProp, BootfsProp, LastUsedProp, MountPointProp,
        destVWrite, destSWrite, SnapshotCanmountProp, SnapshotMountpointProp, BootfsDatasetsProp,
        LastBootedKernelProp]
    · simp [stringToProp, CanmountProp, BootfsProp, LastUsedProp, MountPointProp,
        SnapshotCanmountProp, SnapshotMountpointProp, BootfsDatasetsProp, LastBootedKernelProp]
  · simp [applyCascadeUpdate, CanmountProp, BootfsProp, LastUsedProp, MountPointProp,
      destVWrite, destSWrite, SnapshotCanmountProp, SnapshotMountpointProp, BootfsDatasetsProp,
      LastBootedKernelProp] at h
    obtain ⟨rfl, rfl⟩ := h
    refine ⟨?_, ?_, rfl⟩
    · simp [applyCascadeUpdate, CanmountProp, BootfsProp, LastUsedProp, MountPointProp,
        destVWrite, destSWrite, SnapshotCanmountProp, SnapshotMountpointProp, BootfsDatasetsProp,
        LastBootedKernelProp]
    · simp [stringToProp, CanmountProp, BootfsProp, LastUsedProp, MountPointProp,
        SnapshotCanmountProp, SnapshotMountpointProp, BootfsDatasetsProp, LastBootedKernelProp]
  · simp [applyCascadeUpdate, CanmountProp, BootfsProp, LastUsedProp, MountPointProp,
      SnapshotCanmountProp, SnapshotMountpointProp, BootfsDatasetsProp,
      LastBootedKernelProp] at h
    split at h
    · exact absurd h (by simp)
    · rename_i lu2 hlu2
      simp [destSWrite, destVWrite, CanmountProp, BootfsProp, LastUsedProp, MountPointProp,
        SnapshotCanmountProp, SnapshotMountpointProp, BootfsDatasetsProp,
        LastBootedKernelProp] at h
      obtain ⟨rfl, rfl⟩ := h
      refine ⟨?_, ?_, rfl⟩
      · simp [applyCascadeUpdate, CanmountProp, BootfsProp, LastUsedProp, MountPointProp,
          SnapshotCanmountProp, SnapshotMountpointProp, BootfsDatasetsProp,
          LastBootedKernelProp, hlu2, destSWrite, destVWrite]
      · simp [stringToProp, CanmountProp, BootfsProp, LastUsedProp, MountPointProp,
          SnapshotCanmountProp, SnapshotMountpointProp, BootfsDatasetsProp, LastBootedKernelProp]
  · simp [applyCascadeUpdate, CanmountProp, BootfsProp, LastUsedProp, MountPointProp,
      destVWrite, destSWrite, SnapshotCanmountProp, SnapshotMountpointProp, BootfsDatasetsProp,
      LastBootedKernelProp] at h
    obtain ⟨rfl, rfl⟩ := h
    refine ⟨?_, ?_, rfl⟩
    · simp [applyCascadeUpdate, CanmountProp, BootfsProp, LastUsedProp, MountPointProp,
        destVWrite, destSWrite, SnapshotCanmountProp, SnapshotMountpointProp, BootfsDatasetsProp,
        LastBootedKernelProp]
    · simp [stringToProp, CanmountProp, BootfsProp, LastUsedProp, MountPointProp,
        SnapshotCanmountProp, SnapshotMountpointProp, BootfsDatasetsProp, LastBootedKernelProp]
  · simp [applyCascadeUpdate, CanmountProp, BootfsProp, LastUsedProp, MountPointProp,
      destVWrite, destSWrite, SnapshotCanmountProp, SnapshotMountpointProp, BootfsDatasetsProp,
      LastBootedKernelProp] at h
    obtain ⟨rfl, rfl⟩ := h
    refine ⟨?_, ?_, rfl⟩
    · simp [applyCascadeUpdate, CanmountProp, BootfsProp, LastUsedProp, MountPointProp,
        destVWrite, destSWrite, SnapshotCanmountProp, SnapshotMountpointProp, BootfsDatasetsProp,
        LastBootedKernelProp]
    · simp [stringToProp, CanmountProp, BootfsProp, LastUsedProp, MountPointProp,
        SnapshotCanmountProp, SnapshotMountpointProp, BootfsDatasetsProp, LastBootedKernelProp]

theorem sizeOf_pos_datasetData (cd : DatasetData) : 1 ≤ sizeOf cd := by
  cases cd
  simp
  omega

theorem sizeOf_pos_datasetList (cs : List Dataset) : 1 ≤ sizeOf cs := by
  cases cs
  · simp
  · simp
    omega

/-- Running the cascade a second time over its own output (with the same
incoming captured value) returns that output unchanged. -/
theorem cascade_idem_aux (n : Nat) :
    (∀ c : Dataset, sizeOf c ≤ n → ∀ name oldMP value v1 c1,
      nonMountpointRecognized name →
      cascadeChild name oldMP value c = .ok (v1, c1) →
      cascadeChild name oldMP value c1 = .ok (v1, c1)) ∧
    (∀ cs : List Dataset, sizeOf cs ≤ n → ∀ name oldMP value v1 cs1,
      nonMountpointRecognized name →
      cascadeList name oldMP value cs = .ok (v1, cs1) →
      cascadeList name oldMP value cs1 = .ok (v1, cs1)) := by
  induction n with
  | zero =>
    constructor
    · intro c hc
      have := sizeOf_pos_dataset c
      omega
    · intro cs hcs
      have := sizeOf_pos_datasetList cs
      omega
  | succ n ih =>
    constructor
    · intro c hc name oldMP value v1 c1 hname h
      cases c with
      | node cdata ccs =>
        have hszc : sizeOf ccs ≤ n := by
          have := sizeOf_pos_datasetData cdata
          simp only [Dataset.node.sizeOf_spec] at hc
          omega
        cases hstp : stringToProp cdata name with
        | none =>
          simp only [cascadeChild, hstp] at h
          simp at h
        | some r =>
          simp only [cascadeChild, hstp] at h
          by_cases hsnap : cdata.IsSnapshot = true
          · rw [if_pos hsnap] at h
            simp only [Except.ok.injEq, Prod.mk.injEq] at h
            obtain ⟨rfl, rfl⟩ := h
            simp only [cascadeChild, hstp]
            rw [if_pos hsnap]
          · rw [if_neg hsnap] at h
            by_cases hskip : (r.source != "inherited" && !(r.source == "" && r.np.isNone)) = true
            · rw [if_pos hskip] at h
              simp only [Except.ok.injEq, Prod.mk.injEq] at h
              obtain ⟨rfl, rfl⟩ := h
              simp only [cascadeChild, hstp]
              rw [if_neg hsnap, if_pos hskip]
            · rw [if_neg hskip] at h
              cases hupd : applyCascadeUpdate name oldMP value cdata with
              | error e =>
                simp only [hupd] at h
                simp at h
              | ok p =>
                obtain ⟨vA, cdata1⟩ := p
                simp only [hupd] at h
                cases hcl : cascadeList name oldMP vA ccs with
                | error e =>
                  simp only [hcl] at h
                  simp at h
                | ok q =>
                  obtain ⟨v2, ccs2⟩ := q
                  simp only [hcl] at h
                  simp only [Except.ok.injEq, Prod.mk.injEq] at h
                  obtain ⟨rfl, rfl⟩ := h
                  obtain ⟨hupd2, hsrc1, hsnap1⟩ :=
                    applyCascadeUpdate_idem name hname oldMP value vA cdata cdata1 hupd
                  obtain ⟨r1, hstp1, hr1⟩ :
                      ∃ r1, stringToProp cdata1 name = some r1 ∧ r1.source = "inherited" := by
                    cases hx : stringToProp cdata1 name with
                    | none =>
                      rw [hx] at hsrc1
                      simp at hsrc1
                    | some r1 =>
                      rw [hx] at hsrc1
                      simp at hsrc1
                      exact ⟨r1, rfl, hsrc1⟩
                  simp only [cascadeChild, hstp1]
                  rw [if_neg (by rw [hsnap1]; exact hsnap)]
                  rw [if_neg (by simp [hr1])]
                  simp only [hupd2]
                  simp only [ih.2 ccs hszc name oldMP vA v2 ccs2 hname hcl]
    · intro cs hcs name oldMP value v1 cs1 hname h
      cases cs with
      | nil =>
        simp only [cascadeList] at h
        simp only [Except.ok.injEq, Prod.mk.injEq] at h
        obtain ⟨rfl, rfl⟩ := h
        simp only [cascadeList]
      | cons c rest =>
        have hszc : sizeOf c ≤ n := by
          have := sizeOf_pos_datasetList rest
          simp only [List.cons.sizeOf_spec] at hcs
          omega
        have hszr : sizeOf rest ≤ n := by
          have := sizeOf_pos_dataset c
          simp only [List.cons.sizeOf_spec] at hcs
          omega
        cases hch : cascadeChild name oldMP value c with
        | error e =>
          simp only [cascadeList, hch] at h
          simp at h
        | ok p =>
          obtain ⟨vh, ch⟩ := p
          simp only [cascadeList, hch] at h
          cases hrl : cascadeList name oldMP vh rest with
          | error e =>
            simp only [hrl] at h
            simp at h
          | ok q =>
            obtain ⟨v2, rest2⟩ := q
            simp only [hrl] at h
            simp only [Except.ok.injEq, Prod.mk.injEq] at h
            obtain ⟨rfl, rfl⟩ := h
            simp only [cascadeList,
              ih.1 c hszc name oldMP value vh ch hname hch,
              ih.2 rest hszr name oldMP vh v2 rest2 hname hrl]

/-- C8 (amended): for every recognized property other than mountpoint,
calling `setProperty(D, P, v, "local")` twice in a row with the same
value leaves the in-memory model (the dataset, all its descendants, and
their provenance) in the same observable state as calling it once: the
second call succeeds and returns the first call's result unchanged. -/
theorem C8_setProperty_idempotent (d d1 : Dataset) (name v : String)
    (hname : nonMountpointRecognized name)
    (h : setProperty none d name v "local" = .ok d1) :
    setProperty none d1 name v "local" = .ok d1 := by
  obtain ⟨data, cs, hd⟩ : ∃ data cs, d = Dataset.node data cs := by
    cases d with
    | node data cs => exact ⟨data, cs, rfl⟩
  subst hd
  obtain ⟨i, nm, snap, mp, cm, mtd, bfs, lu, lbk, bfd, org, sm, sc, sb, slu, slbk, sbfd, hcd⟩ :
      ∃ i nm snap mp cm mtd bfs lu lbk bfd org sm sc sb slu slbk, ∃ sbfd : String, data =
        ⟨i, nm, snap, ⟨mp, cm, mtd, bfs, lu, lbk, bfd, org, ⟨sm, sc, sb, slu, slbk, sbfd⟩⟩⟩ := by
    obtain ⟨i, nm, snap, ⟨mp, cm, mtd, bfs, lu, lbk, bfd, org, ⟨sm, sc, sb, slu, slbk, sbfd⟩⟩⟩ := data
    exact ⟨i, nm, snap, mp, cm, mtd, bfs, lu, lbk, bfd, org, sm, sc, sb, slu, slbk, sbfd, rfl⟩
  subst hcd
  rcases hname with rfl | rfl | rfl | rfl | rfl | rfl | rfl
  · simp [setProperty, stringToProp, runCascade, destVWrite, destSWrite,
      CanmountProp, SnapshotCanmountProp, MountPointProp, SnapshotMountpointProp,
      BootfsProp, LastUsedProp, BootfsDatasetsProp, LastBootedKernelProp] at h
    cases hcl : cascadeList "canmount" "" v cs with
    | error e =>
      simp only [hcl] at h
      simp at h
    | ok p =>
      obtain ⟨w, cs1⟩ := p
      simp only [hcl] at h
      simp only [SetPropertyResult.ok.injEq] at h
      subst h
      simp [setProperty, stringToProp, runCascade, destVWrite, destSWrite,
      CanmountProp, SnapshotCanmountProp, MountPointProp, SnapshotMountpointProp,
      BootfsProp, LastUsedProp, BootfsDatasetsProp, LastBootedKernelProp]
      have hidem := (cascade_idem_aux (sizeOf cs)).2 cs (Nat.le_refl _) "canmount" "" v w cs1
        (Or.inl rfl) hcl
      simp only [hidem]
  · simp [setProperty, stringToProp, runCascade, destVWrite, destSWrite,
      CanmountProp, SnapshotCanmountProp, MountPointProp, SnapshotMountpointProp,
      BootfsProp, LastUsedProp, BootfsDatasetsProp, LastBootedKernelProp] at h
    cases hcl : cascadeList "com.ubuntu.zsys:canmount" "" v cs with
    | error e =>
      simp only [hcl] at h
      simp at h
    | ok p =>
      obtain ⟨w, cs1⟩ := p
      simp only [hcl] at h
      simp only [SetPropertyResult.ok.injEq] at h
      subst h
      simp [setProperty, stringToProp, runCascade, destVWrite, destSWrite,
      CanmountProp, SnapshotCanmountProp, MountPointProp, SnapshotMountpointProp,
      BootfsProp, LastUsedProp, BootfsDatasetsProp, LastBootedKernelProp]
      have hidem := (cascade_idem_aux (sizeOf cs)).2 cs (Nat.le_refl _) "com.ubuntu.zsys:canmount" "" v w cs1
        (Or.inr (Or.inl rfl)) hcl
      simp only [hidem]
  · simp [setProperty, stringToProp, runCascade, destVWrite, destSWrite,
      CanmountProp, SnapshotCanmountProp, MountPointProp, SnapshotMountpointProp,
      BootfsProp, LastUsedProp, BootfsDatasetsProp, LastBootedKernelProp] at h
    cases hcl : cascadeList "com.ubuntu.zsys:mountpoint" "" v cs with
    | error e =>
      simp only [hcl] at h
      simp at h
    | ok p =>
      obtain ⟨w, cs1⟩ := p
      simp only [hcl] at h
      simp only [SetPropertyResult.ok.injEq] at h
      subst h
      simp [setProperty, stringToProp, runCascade, destVWrite, destSWrite,
      CanmountProp, SnapshotCanmountProp, MountPointProp, SnapshotMountpointProp,
      BootfsProp, LastUsedProp, BootfsDatasetsProp, LastBootedKernelProp]
      have hidem := (cascade_idem_aux (sizeOf cs)).2 cs (Nat.le_refl _) "com.ubuntu.zsys:mountpoint" "" v w cs1
        (Or.inr (Or.inr (Or.inl rfl))) hcl
      simp only [hidem]
  · simp [setProperty, stringToProp, runCascade, destVWrite, destSWrite,
      CanmountProp, SnapshotCanmountProp, MountPointProp, SnapshotMountpointProp,
      BootfsProp, LastUsedProp, BootfsDatasetsProp, LastBootedKernelProp] at h
    cases hcl : cascadeList "com.ubuntu.zsys:bootfs" "" v cs with
    | error e =>
      simp only [hcl] at h
      simp at h
    | ok p =>
      obtain ⟨w, cs1⟩ := p
      simp only [hcl] at h
      simp only [SetPropertyResult.ok.injEq] at h
      subst h
      simp [setProperty, stringToProp, runCascade, destVWrite, destSWrite,
      CanmountProp, SnapshotCanmountProp, MountPointProp, SnapshotMountpointProp,
      BootfsProp, LastUsedProp, BootfsDatasetsProp, LastBootedKernelProp]
      have hidem := (cascade_idem_aux (sizeOf cs)).2 cs (Nat.le_refl _) "com.ubuntu.zsys:bootfs" "" v w cs1
        (Or.inr (Or.inr (Or.inr (Or.inl rfl)))) hcl
      simp only [hidem]
  · simp [setProperty, stringToProp, runCascade, destVWrite, destSWrite,
      CanmountProp, SnapshotCanmountProp, MountPointProp, SnapshotMountpointProp,
      BootfsProp, LastUsedProp, BootfsDatasetsProp, LastBootedKernelProp] at h
    by_cases hv : v = ""
    · subst hv
      have h0 : atoiGo "0" = some (0 : Int) := rfl
      simp only [eq_self_iff_true, if_true] at h
      rw [h0] at h
      cases hcl : cascadeList "com.ubuntu.zsys:last-used" "" "" cs with
      | error e =>
        simp only [hcl] at h
        simp at h
      | ok p =>
        obtain ⟨w, cs1⟩ := p
        simp only [hcl] at h
        simp only [SetPropertyResult.ok.injEq] at h
        subst h
        simp [setProperty, stringToProp, runCascade, destVWrite, destSWrite,
      CanmountProp, SnapshotCanmountProp, MountPointProp, SnapshotMountpointProp,
      BootfsProp, LastUsedProp, BootfsDatasetsProp, LastBootedKernelProp]
        rw [h0]
        have hidem := (cascade_idem_aux (sizeOf cs)).2 cs (Nat.le_refl _)
          "com.ubuntu.zsys:last-used" "" "" w cs1
          (Or.inr (Or.inr (Or.inr (Or.inr (Or.inl rfl))))) hcl
        simp only [hidem]
    · rw [if_neg hv, atoiGo_itoaGo] at h
      cases hcl : cascadeList "com.ubuntu.zsys:last-used" "" v cs with
      | error e =>
        simp only [hcl] at h
        simp at h
      | ok p =>
        obtain ⟨w, cs1⟩ := p
        simp only [hcl] at h
        simp only [SetPropertyResult.ok.injEq] at h
        subst h
        simp [setProperty, stringToProp, runCascade, destVWrite, destSWrite,
      CanmountProp, SnapshotCanmountProp, MountPointProp, SnapshotMountpointProp,
      BootfsProp, LastUsedProp, BootfsDatasetsProp, LastBootedKernelProp]
        rw [if_neg hv, atoiGo_itoaGo]
        have hidem := (cascade_idem_aux (sizeOf cs)).2 cs (Nat.le_refl _)
          "com.ubuntu.zsys:last-used" "" v w cs1
          (Or.inr (Or.inr (Or.inr (Or.inr (Or.inl rfl))))) hcl
        simp only [hidem]
  · simp [setProperty, stringToProp, runCascade, destVWrite, destSWrite,
      CanmountProp, SnapshotCanmountProp, MountPointProp, SnapshotMountpointProp,
      BootfsProp, LastUsedProp, BootfsDatasetsProp, LastBootedKernelProp] at h
    cases hcl : cascadeList "com.ubuntu.zsys:bootfs-datasets" "" v cs with
    | error e =>
      simp only [hcl] at h
      simp at h
    | ok p =>
      obtain ⟨w, cs1⟩ := p
      simp only [hcl] at h
      simp only [SetPropertyResult.ok.injEq] at h
      subst h
      simp [setProperty, stringToProp, runCascade, destVWrite, destSWrite,
      CanmountProp, SnapshotCanmountProp, MountPointProp, SnapshotMountpointProp,
      BootfsProp, LastUsedProp, BootfsDatasetsProp, LastBootedKernelProp]
      have hidem := (cascade_idem_aux (sizeOf cs)).2 cs (Nat.le_refl _) "com.ubuntu.zsys:bootfs-datasets" "" v w cs1
        (Or.inr (Or.inr (Or.inr (Or.inr (Or.inr (Or.inl rfl)))))) hcl
      simp only [hidem]
  · simp [setProperty, stringToProp, runCascade, destVWrite, destSWrite,
      CanmountProp, SnapshotCanmountProp, MountPointProp, SnapshotMountpointProp,
      BootfsProp, LastUsedProp, BootfsDatasetsProp, LastBootedKernelProp] at h
    cases hcl : cascadeList "com.ubuntu.zsys:last-booted-kernel" "" v cs with
    | error e =>
      simp only [hcl] at h
      simp at h
    | ok p =>
      obtain ⟨w, cs1⟩ := p
      simp only [hcl] at h
      simp only [SetPropertyResult.ok.injEq] at h
      subst h
      simp [setProperty, stringToProp, runCascade, destVWrite, destSWrite,
      CanmountProp, SnapshotCanmountProp, MountPointProp, SnapshotMountpointProp,
      BootfsProp, LastUsedProp, BootfsDatasetsProp, LastBootedKernelProp]
      have hidem := (cascade_idem_aux (sizeOf cs)).2 cs (Nat.le_refl _) "com.ubuntu.zsys:last-booted-kernel" "" v w cs1
        (Or.inr (Or.inr (Or.inr (Or.inr (Or.inr (Or.inr rfl)))))) hcl
      simp only [hidem]

/-- Concrete state for the C8 counterexample: a root with mountpoint
`/old` and an inheriting child at `/old/c`. -/
def c8child : Dataset :=
  Dataset.node
    { id := 1, Name := "p/c",
      prop := { Mountpoint := "/old/c", sources := { Mountpoint := "inherited" } } } []

/-- Root of the C8 counterexample state. -/
def c8root : Dataset :=
  Dataset.node
    { id := 0, Name := "p",
      prop := { Mountpoint := "/old", sources := { Mountpoint := "local" } } } [c8child]

/-- Counterexample to C8 as stated (over all recognized properties):
for the mountpoint property with value `/a/../b`, the first call moves
the child to `/b/c`, but the second identical call moves it again to
`/b/b/c` — the path join/trim rewrite is not idempotent, so the model
is not in the same observable state as after one call. -/
theorem C8_counterexample :
    spMountpointAt (setProperty none c8root MountPointProp "/a/../b" "local") [0] =
      some "/b/c" ∧
    spMountpointAt (spAndThen (setProperty none c8root MountPointProp "/a/../b" "local")
      (fun d => setProperty none d MountPointProp "/a/../b" "local")) [0] =
      some "/b/b/c" ∧
    some ("/b/b/c" : String) ≠ some ("/b/c" : String) :=
  ⟨rfl, rfl, by decide⟩

/-- Concrete input for the C8 witness: a root with a child inheriting the
bootfs-datasets user property. -/
def c8w0 : Dataset :=
  Dataset.node { id := 0, Name := "p" }
    [Dataset.node
      { id := 1, Name := "p/c",
        prop := { sources := { BootfsDatasets := "inherited" } } } []]

/-- The state after one `setProperty(c8w0, BootfsDatasetsProp, "x",
"local")`. -/
def c8w1 : Dataset :=
  Dataset.node
    { id := 0, Name := "p",
      prop := { BootfsDatasets := "x", sources := { BootfsDatasets := "local" } } }
    [Dataset.node
      { id := 1, Name := "p/c",
        prop := { BootfsDatasets := "x", sources := { BootfsDatasets := "inherited" } } } []]

/-- Witness for the amended C8 at a concrete run. -/
theorem C8_setProperty_idempotent_witness :
    nonMountpointRecognized BootfsDatasetsProp ∧
    setProperty none c8w0 BootfsDatasetsProp "x" "local" = .ok c8w1 ∧
    setProperty none c8w1 BootfsDatasetsProp "x" "local" = .ok c8w1 :=
  ⟨Or.inr (Or.inr (Or.inr (Or.inr (Or.inr (Or.inl rfl))))), rfl,
    C8_setProperty_idempotent c8w0 c8w1 BootfsDatasetsProp "x"
      (Or.inr (Or.inr (Or.inr (Or.inr (Or.inr (Or.inl rfl)))))) rfl⟩

/-! ## Claim C1: the promotion transaction -/

theorem find_by_id_unique :
    ∀ l : List Dataset, (l.map fun c => c.data.id).Nodup → ∀ b ∈ l,
    l.find? (fun s => s.data.id == b.data.id) = some b := by
  intro l
  induction l with
  | nil =>
    intro _ b hb
    simp at hb
  | cons c t ih =>
    intro hnd b hb
    simp only [List.map_cons, List.nodup_cons] at hnd
    by_cases hc : (c.data.id == b.data.id) = true
    · simp only [List.find?_cons, hc]
      rcases List.mem_cons.mp hb with rfl | hbt
      · rfl
      · exact absurd (by
          rw [show c.data.id = b.data.id from by simpa using hc]
          exact List.mem_map_of_mem _ hbt) hnd.1
    · have hcf : (c.data.id == b.data.id) = false := by
        simpa using hc
      simp only [List.find?_cons, hcf]
      rcases List.mem_cons.mp hb with rfl | hbt
      · exact absurd (by simp) hc
      · exact ih hnd.2 b hbt

theorem findIdxById_remove (s : Dataset) :
    ∀ l : List Dataset, (l.map fun c => c.data.id).Nodup → s ∈ l →
    ∃ k, findIdxById l s.data.id = some k ∧
      l.take k ++ l.drop (k + 1) = l.filter fun c => !(c.data.id == s.data.id) := by
  intro l
  induction l with
  | nil =>
    intro _ h
    simp at h
  | cons c t ih =>
    intro hnd hmem
    simp only [List.map_cons, List.nodup_cons] at hnd
    by_cases hc : (c.data.id == s.data.id) = true
    · refine ⟨0, by simp [findIdxById, hc], ?_⟩
      have hceq : c.data.id = s.data.id := by simpa using hc
      have hall : ∀ x ∈ t, (!(x.data.id == s.data.id)) = true := by
        intro x hx
        have hne : x.data.id ≠ s.data.id := by
          intro hxx
          exact hnd.1 (by
            rw [hceq, ← hxx]
            exact List.mem_map_of_mem _ hx)
        simp [hne]
      simp only [List.take_zero, List.nil_append, List.drop_succ_cons, List.drop_zero,
        List.filter_cons, hc, Bool.not_true, if_neg (by simp : ¬(false = true))]
      exact (List.filter_eq_self.mpr hall).symm
    · have hst : s ∈ t := by
        rcases List.mem_cons.mp hmem with rfl | h
        · exact absurd (by simp) hc
        · exact h
      obtain ⟨k, hk, hrem⟩ := ih hnd.2 hst
      refine ⟨k + 1, by simp [findIdxById, hc, hk], ?_⟩
      simp only [List.take_succ_cons, List.drop_succ_cons, List.cons_append, List.filter_cons]
      rw [if_pos (by simp [hc] : (!(c.data.id == s.data.id)) = true)]
      rw [← hrem]

theorem migrateOne_spec (st : PromotionState) (s : Dataset)
    (hids : (st.oldOrigin.children.map fun c => c.data.id).Nodup)
    (hmem : s ∈ st.oldOrigin.children) :
    migrateOne st s = .ok
      { oldOrigin := Dataset.node st.oldOrigin.data
          (st.oldOrigin.children.filter fun c => !(c.data.id == s.data.id)),
        newOrigin := Dataset.node st.newOrigin.data
          (st.newOrigin.children ++ [renamedBy st.newOrigin.data.Name s]),
        allDatasets := fun k =>
          if k = s.data.Name then none
          else if k = renamedNameBy st.newOrigin.data.Name s then
            some (renamedBy st.newOrigin.data.Name s)
          else st.allDatasets k } := by
  obtain ⟨k, hk, hrem⟩ := findIdxById_remove s _ hids hmem
  simp only [migrateOne, goFindIndexById, hk]
  rw [if_neg (by omega : ¬((k : Int) < 0))]
  simp only [Int.toNat_natCast]
  rw [hrem]
  rfl

theorem filter_not_any_eq_filter_not (children : List Dataset) (p : Dataset → Bool)
    (hids : (children.map fun c => c.data.id).Nodup) :
    (children.filter fun c => !((children.filter p).any fun s => s.data.id == c.data.id)) =
      children.filter fun c => !(p c) := by
  apply List.filter_congr
  intro c hc
  congr 1
  rw [Bool.eq_iff_iff]
  simp only [List.any_eq_true, List.mem_filter]
  constructor
  · rintro ⟨s, ⟨hsmem, hsp⟩, hsid⟩
    have hs : s = c := List.inj_on_of_nodup_map hids hsmem hc (by simpa using hsid)
    rw [← hs]
    exact hsp
  · intro hpc
    exact ⟨c, ⟨hc, hpc⟩, by simp⟩

/-- Characterization of the migration loop: under pointer distinctness
and name freshness, every selected snapshot is appended (renamed) to
the promoted children, removed from the demoted children, inserted in
the registry under its new name and deleted under its old one, with all
untouched registry keys preserved. -/
theorem migrateAll_spec (todo : List Dataset) :
    ∀ st : PromotionState,
    (st.oldOrigin.children.map fun c => c.data.id).Nodup →
    (st.oldOrigin.children.map fun c => c.data.Name).Nodup →
    todo.Sublist st.oldOrigin.children →
    (∀ s ∈ todo, renamedNameBy st.newOrigin.data.Name s ∉
      st.oldOrigin.children.map fun c => c.data.Name) →
    (todo.map fun s => renamedNameBy st.newOrigin.data.Name s).Nodup →
    ∃ st1, migrateAll st todo = .ok st1 ∧
      st1.oldOrigin = Dataset.node st.oldOrigin.data
        (st.oldOrigin.children.filter fun c => !(todo.any fun s => s.data.id == c.data.id)) ∧
      st1.newOrigin = Dataset.node st.newOrigin.data
        (st.newOrigin.children ++ todo.map (renamedBy st.newOrigin.data.Name)) ∧
      (∀ s ∈ todo,
        st1.allDatasets (renamedNameBy st.newOrigin.data.Name s) =
          some (renamedBy st.newOrigin.data.Name s) ∧
        st1.allDatasets s.data.Name = none) ∧
      (∀ k, k ∉ (todo.map fun s => s.data.Name) →
        k ∉ (todo.map fun s => renamedNameBy st.newOrigin.data.Name s) →
        st1.allDatasets k = st.allDatasets k) := by
  induction todo with
  | nil =>
    intro st _ _ _ _ _
    refine ⟨st, rfl, ?_, ?_, by simp, by simp⟩
    · simp [Dataset.eta]
    · simp [Dataset.eta]
  | cons s rest ih =>
    intro st hids hnames hsub hfresh hrn
    have hmem : s ∈ st.oldOrigin.children := hsub.subset (List.mem_cons_self _ _)
    have hmo := migrateOne_spec st s hids hmem
    have hsubrest : rest.Sublist st.oldOrigin.children :=
      (List.sublist_cons_self s rest).trans hsub
    have hidcons : ((s :: rest).map fun c => c.data.id).Nodup :=
      (hsub.map _).nodup hids
    have hnamecons : ((s :: rest).map fun c => c.data.Name).Nodup :=
      (hsub.map _).nodup hnames
    have hidrest : s.data.id ∉ rest.map fun c => c.data.id :=
      (List.nodup_cons.mp (by simpa using hidcons)).1
    have hnamerest : s.data.Name ∉ rest.map fun c => c.data.Name :=
      (List.nodup_cons.mp (by simpa using hnamecons)).1
    have hallp : ∀ x ∈ rest, (!(x.data.id == s.data.id)) = true := by
      intro x hx
      have : x.data.id ≠ s.data.id := by
        intro hxx
        exact hidrest (by
          rw [← hxx]
          exact List.mem_map_of_mem _ hx)
      simp [this]
    have hfilters : rest.filter (fun c => !(c.data.id == s.data.id)) = rest :=
      List.filter_eq_self.mpr hallp
    have hsubfilter :
        (st.oldOrigin.children.filter fun c => !(c.data.id == s.data.id)).Sublist
          st.oldOrigin.children := List.filter_sublist _
    -- the intermediate state produced by migrateOne
    obtain ⟨st1, hma, hold1, hnew1, hreg1, hframe1⟩ := ih
      { oldOrigin := Dataset.node st.oldOrigin.data
          (st.oldOrigin.children.filter fun c => !(c.data.id == s.data.id)),
        newOrigin := Dataset.node st.newOrigin.data
          (st.newOrigin.children ++ [renamedBy st.newOrigin.data.Name s]),
        allDatasets := fun k =>
          if k = s.data.Name then none
          else if k = renamedNameBy st.newOrigin.data.Name s then
            some (renamedBy st.newOrigin.data.Name s)
          else st.allDatasets k }
      (by
        simp only [Dataset.children_node]
        exact ((List.filter_sublist _).map _).nodup hids)
      (by
        simp only [Dataset.children_node]
        exact ((List.filter_sublist _).map _).nodup hnames)
      (by
        simp only [Dataset.children_node]
        rw [← hfilters]
        exact hsubrest.filter _)
      (by
        simp only [Dataset.data_node, Dataset.children_node]
        intro s' hs' hmm
        exact hfresh s' (List.mem_cons_of_mem _ hs')
          (((List.filter_sublist _).map _).subset hmm))
      (by
        simp only [Dataset.data_node]
        exact (List.nodup_cons.mp (by simpa using hrn)).2)
    simp only [Dataset.data_node, Dataset.children_node] at hold1 hnew1 hreg1 hframe1
    have hnamesub : ∀ {x : Dataset}, x ∈ rest →
        x.data.Name ∈ st.oldOrigin.children.map fun c => c.data.Name := by
      intro x hx
      exact (hsubrest.map _).subset (List.mem_map_of_mem _ hx)
    have hrnnotrest : renamedNameBy st.newOrigin.data.Name s ∉
        rest.map fun c => c.data.Name := by
      intro hmm
      have hsub2 : (rest.map fun c => c.data.Name).Sublist
          (st.oldOrigin.children.map fun c => c.data.Name) := hsubrest.map _
      exact hfresh s (List.mem_cons_self _ _) (hsub2.subset hmm)
    have hrnnotrn : renamedNameBy st.newOrigin.data.Name s ∉
        rest.map fun s' => renamedNameBy st.newOrigin.data.Name s' :=
      (List.nodup_cons.mp (by simpa using hrn)).1
    have hnamenotrn : s.data.Name ∉
        rest.map fun s' => renamedNameBy st.newOrigin.data.Name s' := by
      intro hmm
      obtain ⟨s', hs', heq⟩ := List.mem_map.mp hmm
      exact hfresh s' (List.mem_cons_of_mem _ hs')
        (heq ▸ List.mem_map_of_mem (fun c => c.data.Name) hmem)
    have hsnameself : s.data.Name ∈ st.oldOrigin.children.map fun c => c.data.Name :=
      List.mem_map_of_mem _ hmem
    have hrnne : renamedNameBy st.newOrigin.data.Name s ≠ s.data.Name := by
      intro hmm
      exact hfresh s (List.mem_cons_self _ _) (hmm ▸ hsnameself)
    refine ⟨st1, ?_, ?_, ?_, ?_, ?_⟩
    · simp only [migrateAll, hmo]
      exact hma
    · rw [hold1]
      congr 1
      rw [List.filter_filter]
      apply List.filter_congr
      intro c _
      simp only [List.any_cons, Bool.not_or]
      have hsymm : (c.data.id == s.data.id) = (s.data.id == c.data.id) := by
        cases h : (s.data.id == c.data.id)
        · rw [beq_eq_false_iff_ne] at h
          rw [beq_eq_false_iff_ne]
          exact fun hx => h hx.symm
        · rw [beq_iff_eq] at h
          rw [h]
          simp
      rw [hsymm, Bool.and_comm]
    · rw [hnew1]
      congr 1
      simp [List.append_assoc]
    · intro s' hs'
      rcases List.mem_cons.mp hs' with rfl | htail
      · constructor
        · rw [hframe1 _ hrnnotrest hrnnotrn]
          rw [if_neg hrnne, if_pos rfl]
        · rw [hframe1 _ hnamerest hnamenotrn]
          rw [if_pos rfl]
      · exact hreg1 s' htail
    · intro k hk1 hk2
      have hk1' : k ∉ rest.map fun c => c.data.Name := by
        intro hmm
        exact hk1 (List.mem_cons_of_mem _ hmm)
      have hk2' : k ∉ rest.map fun s' => renamedNameBy st.newOrigin.data.Name s' := by
        intro hmm
        exact hk2 (List.mem_cons_of_mem _ hmm)
      have hkname : k ≠ s.data.Name := by
        intro hmm
        exact hk1 (by simp [hmm])
      have hkrn : k ≠ renamedNameBy st.newOrigin.data.Name s := by
        intro hmm
        exact hk2 (by simp [hmm])
      rw [hframe1 k hk1' hk2', if_neg hkname, if_neg hkrn]

/-- C1: when the promoted clone's recorded origin resolves in the
registry to a base snapshot that is a snapshot child of the demoted
dataset, `inverseOrigin` succeeds and (1) appends to the clone's
children exactly the snapshot children of the demoted dataset whose
`lastUsed` is at most the base snapshot's (ties migrate), each renamed
to the clone's name plus `@` plus its original trailing name; (2)
removes exactly those from the demoted children; (3) the registry gains
each snapshot under its new name and loses it under the old name; and
(4) afterwards the demoted dataset's origin is the base snapshot's name
as read through the Go pointer after the loop's in-place rename — i.e.
its new name, the clone's name plus `@` plus its trailing name (the
base snapshot always migrates, since `lastUsed <= lastUsed`) — and the
clone's origin is empty.  Pointer distinctness is `id`-nodup; the
freshness hypotheses say the new names collide neither with existing
child names nor with each other, as names in a well-formed tree do. -/
theorem C1_inverseOrigin_promotion (st : PromotionState) (base : Dataset)
    (hbase : st.allDatasets st.newOrigin.data.prop.Origin = some base)
    (hbasechild : base ∈ st.oldOrigin.children)
    (hbasesnap : base.data.IsSnapshot = true)
    (hids : (st.oldOrigin.children.map fun c => c.data.id).Nodup)
    (hnames : (st.oldOrigin.children.map fun c => c.data.Name).Nodup)
    (hfresh : ∀ s ∈ st.oldOrigin.children.filter fun c =>
        c.data.IsSnapshot && !(decide (c.data.prop.LastUsed > base.data.prop.LastUsed)),
      renamedNameBy st.newOrigin.data.Name s ∉
        st.oldOrigin.children.map fun c => c.data.Name)
    (hrn : ((st.oldOrigin.children.filter fun c =>
        c.data.IsSnapshot && !(decide (c.data.prop.LastUsed > base.data.prop.LastUsed))).map
        fun s => renamedNameBy st.newOrigin.data.Name s).Nodup) :
    ∃ st1, inverseOrigin st = .ok st1 ∧
      st1.newOrigin.children = st.newOrigin.children ++
        ((st.oldOrigin.children.filter fun c =>
          c.data.IsSnapshot && !(decide (c.data.prop.LastUsed > base.data.prop.LastUsed))).map
          (renamedBy st.newOrigin.data.Name)) ∧
      st1.oldOrigin.children = (st.oldOrigin.children.filter fun c =>
        !(c.data.IsSnapshot && !(decide (c.data.prop.LastUsed > base.data.prop.LastUsed)))) ∧
      (∀ s ∈ st.oldOrigin.children.filter fun c =>
          c.data.IsSnapshot && !(decide (c.data.prop.LastUsed > base.data.prop.LastUsed)),
        st1.allDatasets (renamedNameBy st.newOrigin.data.Name s) =
          some (renamedBy st.newOrigin.data.Name s) ∧
        st1.allDatasets s.data.Name = none) ∧
      st1.oldOrigin.data.prop.Origin = renamedNameBy st.newOrigin.data.Name base ∧
      st1.newOrigin.data.prop.Origin = "" ∧
      st1.oldOrigin.data.Name = st.oldOrigin.data.Name ∧
      st1.newOrigin.data.Name = st.newOrigin.data.Name := by
  obtain ⟨stm, hma, hold, hnew, hreg, _⟩ := migrateAll_spec
    (st.oldOrigin.children.filter fun c =>
      c.data.IsSnapshot && !(decide (c.data.prop.LastUsed > base.data.prop.LastUsed)))
    st hids hnames (List.filter_sublist _) hfresh hrn
  have holdD : stm.oldOrigin.data = st.oldOrigin.data := by
    rw [hold]
    rfl
  have holdC : stm.oldOrigin.children =
      st.oldOrigin.children.filter (fun c =>
        !((st.oldOrigin.children.filter fun c =>
          c.data.IsSnapshot && !(decide (c.data.prop.LastUsed > base.data.prop.LastUsed))).any
            fun s => s.data.id == c.data.id)) := by
    rw [hold]
    rfl
  have hnewD : stm.newOrigin.data = st.newOrigin.data := by
    rw [hnew]
    rfl
  have hnewC : stm.newOrigin.children = st.newOrigin.children ++
      ((st.oldOrigin.children.filter fun c =>
        c.data.IsSnapshot && !(decide (c.data.prop.LastUsed > base.data.prop.LastUsed))).map
        (renamedBy st.newOrigin.data.Name)) := by
    rw [hnew]
    rfl
  have hbasesel : base ∈ st.oldOrigin.children.filter fun c =>
      c.data.IsSnapshot && !(decide (c.data.prop.LastUsed > base.data.prop.LastUsed)) := by
    refine List.mem_filter.mpr ⟨hbasechild, ?_⟩
    simp [hbasesnap]
  have hselids : ((st.oldOrigin.children.filter fun c =>
      c.data.IsSnapshot && !(decide (c.data.prop.LastUsed > base.data.prop.LastUsed))).map
      fun c => c.data.id).Nodup :=
    ((List.filter_sublist _).map _).nodup hids
  have hfind : (st.oldOrigin.children.filter fun c =>
      c.data.IsSnapshot && !(decide (c.data.prop.LastUsed > base.data.prop.LastUsed))).find?
        (fun s => s.data.id == base.data.id) = some base :=
    find_by_id_unique _ hselids base hbasesel
  refine ⟨{ oldOrigin := Dataset.node
              { stm.oldOrigin.data with prop :=
                  { stm.oldOrigin.data.prop with
                      Origin := renamedNameBy st.newOrigin.data.Name base } }
              stm.oldOrigin.children,
            newOrigin := Dataset.node
              { stm.newOrigin.data with prop :=
                  { stm.newOrigin.data.prop with Origin := "" } }
              stm.newOrigin.children,
            allDatasets := stm.allDatasets }, ?_, ?_, ?_, ?_, ?_, ?_, ?_, ?_⟩
  · simp only [inverseOrigin, hbase]
    simp only [hma, hfind]
  · simp only [Dataset.children_node]
    exact hnewC
  · simp only [Dataset.children_node]
    rw [holdC, filter_not_any_eq_filter_not _ _ hids]
  · intro s hs
    exact hreg s hs
  · rfl
  · rfl
  · simp only [Dataset.data_node]
    rw [holdD]
  · simp only [Dataset.data_node]
    rw [hnewD]

/-- Snapshot `base@1` of the spec's promotion example. -/
def c1base1 : Dataset :=
  Dataset.node { id := 11, Name := "base@1", IsSnapshot := true, prop := { LastUsed := 10 } } []

/-- Snapshot `base@2`, the clone's origin point. -/
def c1base2 : Dataset :=
  Dataset.node { id := 12, Name := "base@2", IsSnapshot := true, prop := { LastUsed := 30 } } []

/-- The demoted dataset `base` with its two snapshots. -/
def c1old : Dataset := Dataset.node { id := 1, Name := "base" } [c1base1, c1base2]

/-- The promoted clone `clone`, whose origin is `base@2`. -/
def c1new : Dataset := Dataset.node { id := 2, Name := "clone", prop := { Origin := "base@2" } } []

/-- The promotion state of the spec's example. -/
def c1st : PromotionState :=
  { oldOrigin := c1old, newOrigin := c1new,
    allDatasets := fun k =>
      if k = "base@1" then some c1base1
      else if k = "base@2" then some c1base2
      else none }

/-- Witness for C1 at the spec's concrete promotion example: both
snapshots migrate as `clone@1`/`clone@2`, and in particular the demoted
dataset's final origin is `clone@2` — the base snapshot's post-rename
name. -/
theorem C1_inverseOrigin_promotion_witness :
    (c1st.allDatasets c1st.newOrigin.data.prop.Origin = some c1base2 ∧
     c1base2 ∈ c1st.oldOrigin.children ∧
     renamedNameBy c1st.newOrigin.data.Name c1base2 = "clone@2") ∧
    ∃ st1, inverseOrigin c1st = .ok st1 ∧
      st1.newOrigin.children = c1st.newOrigin.children ++
        ((c1st.oldOrigin.children.filter fun c =>
          c.data.IsSnapshot &&
            !(decide (c.data.prop.LastUsed > c1base2.data.prop.LastUsed))).map
          (renamedBy c1st.newOrigin.data.Name)) ∧
      st1.oldOrigin.children = (c1st.oldOrigin.children.filter fun c =>
        !(c.data.IsSnapshot &&
          !(decide (c.data.prop.LastUsed > c1base2.data.prop.LastUsed)))) ∧
      (∀ s ∈ c1st.oldOrigin.children.filter fun c =>
          c.data.IsSnapshot &&
            !(decide (c.data.prop.LastUsed > c1base2.data.prop.LastUsed)),
        st1.allDatasets (renamedNameBy c1st.newOrigin.data.Name s) =
          some (renamedBy c1st.newOrigin.data.Name s) ∧
        st1.allDatasets s.data.Name = none) ∧
      st1.oldOrigin.data.prop.Origin = renamedNameBy c1st.newOrigin.data.Name c1base2 ∧
      st1.newOrigin.data.prop.Origin = "" ∧
      st1.oldOrigin.data.Name = c1st.oldOrigin.data.Name ∧
      st1.newOrigin.data.Name = c1st.newOrigin.data.Name :=
  ⟨⟨rfl, List.mem_cons_of_mem _ (List.mem_cons_self _ _), rfl⟩,
    C1_inverseOrigin_promotion c1st c1base2 rfl
      (List.mem_cons_of_mem _ (List.mem_cons_self _ _)) rfl
      (by decide) (by decide) (by decide) (by decide)⟩

end Zsys
